import Mathlib

/-!
Verification of the music-league core: record stores (competitor.py, round.py,
submission.py, vote.py), the League aggregator (league.py) and the statistics
engine (league_stats.py), shallowly embedded over in-memory lists.  CSV
persistence is I/O and is outside the embedding; each manager is modelled by
its in-memory list of records, and every operation is translated directly from
the corresponding Python method.
-/

/-! ## Python string and numeric semantics

The scoring code guards every numeric conversion with
`str(v.points_assigned).isdigit()` and then applies `int(...)`.  These two do
not agree on all of Unicode: `str.isdigit` accepts every character with
Numeric_Type=Digit, while `int` accepts only decimal digits and raises
`ValueError` on the rest.  A superscript such as U+00B2 passes the guard and
then crashes the conversion.  `pyIsDigit` models `str.isdigit` (non-empty and
every character a digit in the sense below), `pyIntVal` is the value `int`
computes on a decimal string, and `pyInt` models `int(s)` for the strings
reaching it through the guard, returning `none` where `int` would raise. -/

/-- Python's per-character test behind `str.isdigit`: true for the decimal
digits and also for the characters with Numeric_Type=Digit that are not
decimal digits and that `int()` therefore rejects.  Modelled fragment:
ASCII 0-9 plus the superscript digits U+00B9, U+00B2, U+00B3 and U+2070,
U+2074-U+2079; characters outside the fragment are treated as non-digits. -/
def pyIsDigitChar (c : Char) : Bool :=
  c.isDigit || c = '¹' || c = '²' || c = '³' ||
    c.toNat = 0x2070 || (0x2074 ≤ c.toNat && c.toNat ≤ 0x2079)

def pyIsDigit (s : String) : Bool :=
  !s.data.isEmpty && s.data.all pyIsDigitChar

def pyIntVal (s : String) : Nat :=
  s.data.foldl (fun n c => 10 * n + (c.toNat - 48)) 0

def pyInt (s : String) : Option Nat :=
  if s.data.all (fun c => c.isDigit) && !s.data.isEmpty then some (pyIntVal s) else none

/-! ## Record types (competitor.py, round.py, submission.py, vote.py) -/

structure Competitor where
  id : String
  name : String
deriving DecidableEq

structure Round where
  id : String
  time_created : String
  name : String
  description : String
  playlist_url : String
deriving DecidableEq

structure Submission where
  spotify_uri : String
  title : String
  album : String
  artists : String
  submitter_id : String
  created : String
  comment : String
  round_id : String
  visible_to_voters : String
deriving DecidableEq

structure Vote where
  spotify_uri : String
  voter_id : String
  created : String
  points_assigned : String
  comment : String
  round_id : String
deriving DecidableEq

/-! ## Record store operations

Each manager holds an ordered in-memory list.  The lookup and filter methods
are linear scans; `add` for competitors, rounds and submissions rejects a
present natural key by returning `none`, while `add_vote` (vote.py lines
81-97) performs no duplicate check and always appends.  The state returned by
an `add` is the collection after the call (persistence to CSV is I/O and not
modelled). -/

def competitors_get_by_id (competitors : List Competitor) (competitor_id : String) :
    Option Competitor :=
  competitors.find? (fun c => c.id == competitor_id)

def rounds_get_by_id (rounds : List Round) (round_id : String) : Option Round :=
  rounds.find? (fun r => r.id == round_id)

def submissions_get_by_spotify_uri (submissions : List Submission) (spotify_uri : String) :
    Option Submission :=
  submissions.find? (fun s => s.spotify_uri == spotify_uri)

def votes_get_by_spotify_uri (votes : List Vote) (spotify_uri : String) : List Vote :=
  votes.filter (fun v => v.spotify_uri == spotify_uri)

def votes_get_by_voter_id (votes : List Vote) (voter_id : String) : List Vote :=
  votes.filter (fun v => v.voter_id == voter_id)

def votes_get_by_round_id (votes : List Vote) (round_id : String) : List Vote :=
  votes.filter (fun v => v.round_id == round_id)

def add_competitor (competitors : List Competitor) (competitor_id name : String) :
    Option Competitor × List Competitor :=
  match competitors_get_by_id competitors competitor_id with
  | none =>
    let c : Competitor := ⟨competitor_id, name⟩
    (some c, competitors ++ [c])
  | some _ => (none, competitors)

def add_round (rounds : List Round)
    (round_id time_created name description playlist_url : String) :
    Option Round × List Round :=
  match rounds_get_by_id rounds round_id with
  | none =>
    let r : Round := ⟨round_id, time_created, name, description, playlist_url⟩
    (some r, rounds ++ [r])
  | some _ => (none, rounds)

def add_submission (submissions : List Submission)
    (spotify_uri title album artists submitter_id created comment round_id
      visible_to_voters : String) :
    Option Submission × List Submission :=
  match submissions_get_by_spotify_uri submissions spotify_uri with
  | none =>
    let s : Submission := ⟨spotify_uri, title, album, artists, submitter_id,
      created, comment, round_id, visible_to_voters⟩
    (some s, submissions ++ [s])
  | some _ => (none, submissions)

def add_vote (votes : List Vote)
    (spotify_uri voter_id created points_assigned comment round_id : String) :
    Vote × List Vote :=
  let v : Vote := ⟨spotify_uri, voter_id, created, points_assigned, comment, round_id⟩
  (v, votes ++ [v])

/-! ## The League aggregator (league.py) -/

structure League where
  competitors : List Competitor
  rounds : List Round
  submissions : List Submission
  votes : List Vote

def League.get_submissions_by_competitor (L : League) (competitor_id : String) :
    List Submission :=
  L.submissions.filter (fun s => s.submitter_id == competitor_id)

def League.get_submissions_by_round (L : League) (round_id : String) : List Submission :=
  L.submissions.filter (fun s => s.round_id == round_id)

/-- league.py lines 47-53: collect the URIs of the competitor's submissions
and keep the votes whose URI is in that set (set membership modelled by list
membership). -/
def League.get_votes_by_competitor (L : League) (competitor_id : String) : List Vote :=
  let uris := (L.get_submissions_by_competitor competitor_id).map (fun s => s.spotify_uri)
  L.votes.filter (fun v => uris.contains v.spotify_uri)

def League.get_votes_for_submission (L : League) (spotify_uri : String) : List Vote :=
  votes_get_by_spotify_uri L.votes spotify_uri

/-- league.py lines 58-64: the rounds-store records whose id occurs among the
competitor's submission round ids. -/
def League.get_rounds_for_competitor (L : League) (competitor_id : String) : List Round :=
  let round_ids := (L.get_submissions_by_competitor competitor_id).map (fun s => s.round_id)
  L.rounds.filter (fun r => round_ids.contains r.id)

def League.get_submission_by_uri (L : League) (spotify_uri : String) : Option Submission :=
  submissions_get_by_spotify_uri L.submissions spotify_uri

/-- The guarded point sum

  sum(int(v.points_assigned) for v in votes if str(v.points_assigned).isdigit())

as a total function on the vote list. -/
def sumPoints : List Vote → Nat
  | [] => 0
  | v :: rest =>
    (if pyIsDigit v.points_assigned then pyIntVal v.points_assigned else 0) + sumPoints rest

/-- The same guarded sum with the possibility of `int` raising made explicit:
`none` models an uncaught `ValueError` escaping the aggregate. -/
def sumPointsE : List Vote → Option Nat
  | [] => some 0
  | v :: rest =>
    if pyIsDigit v.points_assigned then
      match pyInt v.points_assigned, sumPointsE rest with
      | some k, some n => some (k + n)
      | _, _ => none
    else sumPointsE rest

/-- league.py lines 81-86. -/
def League.tally_competitor_score (L : League) (competitor_id : String) : Nat :=
  sumPoints (L.get_votes_by_competitor competitor_id)

def League.tally_competitor_scoreE (L : League) (competitor_id : String) : Option Nat :=
  sumPointsE (L.get_votes_by_competitor competitor_id)

/-! ## Insertion-ordered accumulation dictionaries

Python dicts preserve insertion order: `d[k] = d.get(k, 0) + n` keeps an
existing key in place and appends a new key at the end.  `bump` is that
update on an association list, `alookup` is `d.get`, and `accumBy` is the
accumulation loop over a record list. -/

def bump (k : String) (n : Nat) : List (String × Nat) → List (String × Nat)
  | [] => [(k, n)]
  | p :: rest => if p.1 == k then (p.1, p.2 + n) :: rest else p :: bump k n rest

def alookup (k : String) : List (String × Nat) → Option Nat
  | [] => none
  | p :: rest => if p.1 == k then some p.2 else alookup k rest

def accumBy (key : α → String) (val : α → Nat) : List α → List (String × Nat) → List (String × Nat)
  | [], d => d
  | x :: xs, d => accumBy key val xs (bump (key x) (val x) d)

/-- The accumulation loop with a per-record guard, as written in the source
(`if str(vote.points_assigned).isdigit(): d[k] = d.get(k, 0) + int(...)`). -/
def accumByG (key : α → String) (val : α → Nat) (g : α → Bool) :
    List α → List (String × Nat) → List (String × Nat)
  | [], d => d
  | x :: xs, d => accumByG key val g xs (if g x then bump (key x) (val x) d else d)

/-- Python `max(l, key=f)`: single pass keeping the first element whose value
is strictly greater than the running best, hence the first maximum. -/
def firstMaxBy (val : β → Nat) : List β → Option β
  | [] => none
  | b :: rest => some (rest.foldl (fun acc q => if val q > val acc then q else acc) b)

/-- Python `min(l, key=f)`: the first minimum. -/
def firstMinBy (val : β → Nat) : List β → Option β
  | [] => none
  | b :: rest => some (rest.foldl (fun acc q => if val q < val acc then q else acc) b)

def maxByVal (d : List (String × Nat)) : Option (String × Nat) :=
  firstMaxBy (fun p => p.2) d

def minByVal (d : List (String × Nat)) : Option (String × Nat) :=
  firstMinBy (fun p => p.2) d

/-- league.py lines 88-99: accumulate, for each submission in the round, the
guarded point sum of all votes on its URI, keyed by submitter id. -/
def League.tally_scores_by_round (L : League) (round_id : String) : List (String × Nat) :=
  accumBy (fun s => s.submitter_id)
    (fun s => sumPoints (L.get_votes_for_submission s.spotify_uri))
    (L.get_submissions_by_round round_id) []

def League.tally_scores_by_roundE (L : League) (round_id : String) :
    Option (List (String × Nat)) :=
  (L.get_submissions_by_round round_id).foldl
    (fun acc s =>
      match acc, sumPointsE (L.get_votes_for_submission s.spotify_uri) with
      | some d, some t => some (bump s.submitter_id t d)
      | _, _ => none)
    (some [])

/-! ## Leaderboard (league.py lines 101-118) -/

structure LBEntry where
  competitor : Competitor
  score : Nat
  rounds : Nat
  avg_score : Rat
  name : String
deriving DecidableEq

def League.mkEntry (L : League) (c : Competitor) : LBEntry :=
  let score := L.tally_competitor_score c.id
  let rounds := (L.get_rounds_for_competitor c.id).length
  { competitor := c
    score := score
    rounds := rounds
    avg_score := if rounds = 0 then 0 else (score : Rat) / (rounds : Rat)
    name := c.name }

/-- The rows appended in competitor-store order before sorting. -/
def League.leaderboard_rows (L : League) : List LBEntry :=
  L.competitors.map L.mkEntry

/-- Stable insertion step for a descending sort on `score`: a new element goes
in front of the first element whose score is less than or equal to its own,
hence after every earlier element with the same score. -/
def insertDesc (e : LBEntry) : List LBEntry → List LBEntry
  | [] => [e]
  | f :: rest => if f.score ≤ e.score then e :: f :: rest else f :: insertDesc e rest

/-- Python `list.sort(key=lambda x: x['score'], reverse=True)` is the unique
stable reordering that is descending on `score`; modelled by a stable
insertion sort. -/
def sortDesc : List LBEntry → List LBEntry
  | [] => []
  | e :: rest => insertDesc e (sortDesc rest)

def League.get_leaderboard (L : League) : List LBEntry :=
  sortDesc L.leaderboard_rows

/-! ## Statistics engine (league_stats.py) -/

/-- league_stats.py lines 26-38: guarded accumulation of points per URI,
then first maximum, `none` on an empty accumulator. -/
def score_counts (votes : List Vote) : List (String × Nat) :=
  accumByG (fun v => v.spotify_uri) (fun v => pyIntVal v.points_assigned)
    (fun v => pyIsDigit v.points_assigned) votes []

def highest_scoring_submission (L : League) : Option (String × Nat) :=
  maxByVal (score_counts L.votes)

/-- league_stats.py lines 57-68 and 70-81 share this accumulator: total
points given per voter, counting only guard-passing votes. -/
def voter_points (votes : List Vote) : List (String × Nat) :=
  accumByG (fun v => v.voter_id) (fun v => pyIntVal v.points_assigned)
    (fun v => pyIsDigit v.points_assigned) votes []

def most_generous_voter (votes : List Vote) : Option (String × Nat) :=
  maxByVal (voter_points votes)

def most_critical_voter (votes : List Vote) : Option (String × Nat) :=
  minByVal (voter_points votes)

/-- Guarded per-vote accumulation with `int` failure made explicit: `none`
models a `ValueError` escaping the loop. -/
def accumVotesE (key : Vote → String) :
    List Vote → Option (List (String × Nat)) → Option (List (String × Nat))
  | [], acc => acc
  | v :: vs, acc =>
    accumVotesE key vs
      (match acc with
       | none => none
       | some d =>
         if pyIsDigit v.points_assigned then
           match pyInt v.points_assigned with
           | some k => some (bump (key v) k d)
           | none => none
         else some d)

def score_countsE (votes : List Vote) : Option (List (String × Nat)) :=
  accumVotesE (fun v => v.spotify_uri) votes (some [])

def voter_pointsE (votes : List Vote) : Option (List (String × Nat)) :=
  accumVotesE (fun v => v.voter_id) votes (some [])

/-- The guarded point total of one submission (league_stats.py lines 104-106,
49-52): all votes on its URI, summed through the digit guard. -/
def League.sub_points (L : League) (s : Submission) : Nat :=
  sumPoints (L.get_votes_for_submission s.spotify_uri)

/-- Python dict assignment `d[k] = v`: replace in place or append. -/
def assignQ (k : String) (v : Rat) : List (String × Rat) → List (String × Rat)
  | [] => [(k, v)]
  | p :: rest => if p.1 == k then (p.1, v) :: rest else p :: assignQ k v rest

def alookupQ (k : String) : List (String × Rat) → Option Rat
  | [] => none
  | p :: rest => if p.1 == k then some p.2 else alookupQ k rest

/-- league_stats.py lines 40-55: competitors with no submissions are skipped;
otherwise the total guarded points over all their submissions divided by the
submission count (Python float division modelled as exact rational
division). -/
def average_points_per_competitor (L : League) : List (String × Rat) :=
  L.competitors.foldl
    (fun d c =>
      let subs := L.get_submissions_by_competitor c.id
      if subs.isEmpty then d
      else assignQ c.id
        (((subs.map L.sub_points).sum : Rat) / (subs.length : Rat)) d)
    []

/-- league_stats.py lines 100-111: running best starting from `(None, -1)`,
updated only on a strictly greater point total. -/
def best_submission (L : League) (competitor_id : String) : Option (Submission × Int) :=
  let r := (L.get_submissions_by_competitor competitor_id).foldl
    (fun acc sub =>
      if (L.sub_points sub : Int) > acc.2 then (some sub, (L.sub_points sub : Int)) else acc)
    ((none : Option Submission), (-1 : Int))
  match r.1 with
  | none => none
  | some s => some (s, r.2)

/-- league_stats.py lines 114-119: submitter ids of the votes this competitor
cast whose URI resolves to a submission; unresolvable votes are dropped. -/
def votes_cast_targets (L : League) (competitor_id : String) : List String :=
  (votes_get_by_voter_id L.votes competitor_id).filterMap
    (fun v => (L.get_submission_by_uri v.spotify_uri).map (fun s => s.submitter_id))

/-- league_stats.py lines 115-123: points given per submitter, only for votes
that resolve to a submission and pass the digit guard. -/
def points_given (L : League) (competitor_id : String) : List (String × Nat) :=
  (votes_get_by_voter_id L.votes competitor_id).foldl
    (fun d v =>
      match L.get_submission_by_uri v.spotify_uri with
      | none => d
      | some sub =>
        if pyIsDigit v.points_assigned then
          bump sub.submitter_id (pyIntVal v.points_assigned) d
        else d)
    []

/-- `collections.Counter` over a string list: counts in first-encounter
order. -/
def counterOf (xs : List String) : List (String × Nat) :=
  accumBy (fun k => k) (fun _ => 1) xs []

/-- `Counter(xs).most_common(1)[0]` when `xs` is non-empty: `most_common`
sorts stably by count descending, so the head is the first-encountered
maximum. -/
def most_common1 (xs : List String) : Option (String × Nat) :=
  maxByVal (counterOf xs)

/-- league_stats.py lines 124-132. -/
def most_often_voted_for (L : League) (competitor_id : String) :
    Option (Option Competitor × Nat) :=
  match most_common1 (votes_cast_targets L competitor_id) with
  | none => none
  | some (k, n) => some (competitors_get_by_id L.competitors k, n)

/-- league_stats.py lines 134-142: `max(points_given, key=points_given.get)`
iterates the dict keys in insertion order and keeps the first maximum. -/
def most_points_given_to (L : League) (competitor_id : String) :
    Option (Option Competitor × Nat) :=
  match maxByVal (points_given L competitor_id) with
  | none => none
  | some (k, n) => some (competitors_get_by_id L.competitors k, n)

/-- league_stats.py lines 144-152: every received vote is counted; the digit
guard applies only to the points accumulator. -/
def received_from_voters (L : League) (competitor_id : String) : List String :=
  (L.get_votes_by_competitor competitor_id).map (fun v => v.voter_id)

def points_received_from (L : League) (competitor_id : String) : List (String × Nat) :=
  accumByG (fun v => v.voter_id) (fun v => pyIntVal v.points_assigned)
    (fun v => pyIsDigit v.points_assigned) (L.get_votes_by_competitor competitor_id) []

/-- league_stats.py lines 153-161. -/
def most_often_votes_from (L : League) (competitor_id : String) :
    Option (Option Competitor × Nat) :=
  match most_common1 (received_from_voters L competitor_id) with
  | none => none
  | some (k, n) => some (competitors_get_by_id L.competitors k, n)

/-- league_stats.py lines 163-172. -/
def most_points_from (L : League) (competitor_id : String) :
    Option (Option Competitor × Nat) :=
  match maxByVal (points_received_from L competitor_id) with
  | none => none
  | some (k, n) => some (competitors_get_by_id L.competitors k, n)

/-! ## Spec-side definitions

These follow the words of the specification, to be compared with the
definitions translated from the code. -/

/-- The value a vote contributes to a sum per the spec: its parsed value when
`points_assigned` parses as a non-negative integer (a non-empty string of
decimal digits), nothing otherwise. -/
def voteValue (v : Vote) : Nat :=
  if pyIsDigit v.points_assigned then pyIntVal v.points_assigned else 0

/-- Spec wording for C1: the sum over all votes whose track reference belongs
to some submission whose submitter is the competitor. -/
def spec_score_of (L : League) (competitor_id : String) : Nat :=
  ((L.votes.filter
      (fun v => L.submissions.any
        (fun s => s.submitter_id == competitor_id && s.spotify_uri == v.spotify_uri))).map
    voteValue).sum

/-- Total points a voter gave across all votes, counting guard-passing votes
only (spec wording for C7). -/
def totalGiven (w : String) (votes : List Vote) : Nat :=
  (((votes.filter (fun v => pyIsDigit v.points_assigned)).filter
      (fun v => v.voter_id == w)).map (fun v => pyIntVal v.points_assigned)).sum

def hasDigitVote (w : String) (votes : List Vote) : Bool :=
  votes.any (fun v => v.voter_id == w && pyIsDigit v.points_assigned)

/-- Index in the vote collection of a voter's first vote that enters the
accumulation (first vote with numeric points). -/
def firstDigitIdx (w : String) (votes : List Vote) : Nat :=
  votes.findIdx (fun v => v.voter_id == w && pyIsDigit v.points_assigned)

/-- A league with the same stores but only the guard-passing votes. -/
def digitVotesOnly (L : League) : League :=
  { L with votes := L.votes.filter (fun v => pyIsDigit v.points_assigned) }

/-- A league with the same stores but only the votes whose URI resolves to a
submission. -/
def resolvableVotesOnly (L : League) : League :=
  { L with votes := L.votes.filter (fun v => (L.get_submission_by_uri v.spotify_uri).isSome) }

/-! ## Auxiliary definitions used by the lemmas -/

/-- The spec-side total accumulated under key `k`. -/
def sumFor (key : α → String) (val : α → Nat) (k : String) (xs : List α) : Nat :=
  ((xs.filter (fun x => key x == k)).map val).sum

/-- The distinct elements of a list in first-occurrence order, skipping the
elements of `seen`. -/
def firstOccsFrom (seen : List String) : List String → List String
  | [] => []
  | k :: ks =>
    if seen.contains k then firstOccsFrom seen ks
    else k :: firstOccsFrom (k :: seen) ks

/-- The keys of an association list. -/
def dkeys (d : List (String × Nat)) : List String :=
  d.map (fun p => p.1)

/-- The loop body of the points_given accumulation (league_stats.py lines
116-123), parameterized by the submission-resolution function. -/
def pgStep (g : Vote → Option Submission) (d2 : List (String × Nat)) (v : Vote) :
    List (String × Nat) :=
  match g v with
  | none => d2
  | some sub =>
    if pyIsDigit v.points_assigned then
      bump sub.submitter_id (pyIntVal v.points_assigned) d2
    else d2

/-! ## Lemmas: the digit guard and the guarded sums -/

theorem sumPoints_filter_digit (l : List Vote) :
    sumPoints (l.filter (fun v => pyIsDigit v.points_assigned)) = sumPoints l := by
  induction l with
  | nil => rfl
  | cons v rest ih =>
    by_cases h : pyIsDigit v.points_assigned = true
    · simp [List.filter_cons, h, sumPoints, ih]
    · simp only [Bool.not_eq_true] at h
      simp [List.filter_cons, h, sumPoints, ih]

theorem sumPoints_eq_sum_map (l : List Vote) : sumPoints l = (l.map voteValue).sum := by
  induction l with
  | nil => rfl
  | cons v rest ih => simp [sumPoints, voteValue, ih]

/-! ## Lemmas: insertion-ordered dictionaries -/

theorem accumByG_eq_filter (key : α → String) (val : α → Nat) (g : α → Bool)
    (xs : List α) (d : List (String × Nat)) :
    accumByG key val g xs d = accumBy key val (xs.filter g) d := by
  induction xs generalizing d with
  | nil => rfl
  | cons x xs ih =>
    by_cases h : g x = true
    · simp [accumByG, List.filter_cons, h, accumBy, ih]
    · simp only [Bool.not_eq_true] at h
      simp [accumByG, List.filter_cons, h, ih]

theorem alookup_bump_self (k : String) (n : Nat) (d : List (String × Nat)) :
    alookup k (bump k n d) = some ((alookup k d).getD 0 + n) := by
  induction d with
  | nil => simp [bump, alookup]
  | cons p rest ih =>
    by_cases h : p.1 = k
    · simp [bump, alookup, h]
    · have hb : (p.1 == k) = false := by simp [h]
      simp [bump, alookup, hb, ih]

theorem alookup_bump_ne (k k₂ : String) (n : Nat) (d : List (String × Nat))
    (h : k ≠ k₂) : alookup k (bump k₂ n d) = alookup k d := by
  induction d with
  | nil =>
    have hkk : (k₂ == k) = false := by
      simp
      exact fun hc => h hc.symm
    simp [bump, alookup, hkk]
  | cons p rest ih =>
    by_cases hp : p.1 = k₂
    · have h1 : (p.1 == k₂) = true := by simp [hp]
      have h2 : (p.1 == k) = false := by
        simp [hp]
        exact fun hc => h hc.symm
      simp [bump, alookup, h1, h2]
    · have h1 : (p.1 == k₂) = false := by simp [hp]
      simp [bump, alookup, h1, ih]

theorem alookup_accumBy (key : α → String) (val : α → Nat) (k : String)
    (xs : List α) (d : List (String × Nat)) :
    alookup k (accumBy key val xs d) =
      match alookup k d with
      | some m => some (m + sumFor key val k xs)
      | none =>
        if xs.any (fun x => key x == k) then some (sumFor key val k xs) else none := by
  induction xs generalizing d with
  | nil =>
    simp only [accumBy, List.any_nil, if_false, sumFor, List.filter_nil, List.map_nil,
      List.sum_nil]
    cases alookup k d <;> simp
  | cons x xs ih =>
    by_cases h : key x = k
    · have hb : (key x == k) = true := by simp [h]
      rw [accumBy, ih, h, alookup_bump_self]
      have hsum : sumFor key val k (x :: xs) = val x + sumFor key val k xs := by
        simp [sumFor, List.filter_cons, hb]
      cases hd : alookup k d with
      | some m => simp [hsum]; omega
      | none =>
        simp only [hsum, Option.getD_none, Nat.zero_add, List.any_cons, hb,
          Bool.true_or, if_true]
    · have hb : (key x == k) = false := by simp [h]
      rw [accumBy, ih, alookup_bump_ne k (key x) (val x) d (fun hc => h hc.symm)]
      have hsum : sumFor key val k (x :: xs) = sumFor key val k xs := by
        simp [sumFor, List.filter_cons, hb]
      simp [hsum, hb]

theorem contains_iff (l : List String) (a : String) : l.contains a = true ↔ a ∈ l :=
  List.elem_iff

theorem firstOccsFrom_cons (seen : List String) (k : String) (ks : List String) :
    firstOccsFrom seen (k :: ks) =
      if k ∈ seen then firstOccsFrom seen ks else k :: firstOccsFrom (k :: seen) ks := by
  simp only [firstOccsFrom]
  by_cases hc : k ∈ seen
  · rw [if_pos ((contains_iff seen k).mpr hc), if_pos hc]
  · rw [if_neg (fun ht => hc ((contains_iff seen k).mp ht)), if_neg hc]

theorem dkeys_bump (k : String) (n : Nat) (d : List (String × Nat)) :
    dkeys (bump k n d) = if k ∈ dkeys d then dkeys d else dkeys d ++ [k] := by
  induction d with
  | nil => simp [bump, dkeys]
  | cons p rest ih =>
    by_cases hp : p.1 = k
    · simp [bump, dkeys, hp]
    · have h1 : (p.1 == k) = false := by simp [hp]
      have hkp : ¬ k = p.1 := fun hc => hp hc.symm
      have hgoal : bump k n (p :: rest) = p :: bump k n rest := by
        simp [bump, h1]
      have hd : dkeys (p :: bump k n rest) = p.1 :: dkeys (bump k n rest) := rfl
      rw [hgoal, hd, ih]
      have hmc : (k ∈ dkeys (p :: rest)) ↔ (k ∈ dkeys rest) := by
        simp [dkeys, List.mem_cons, hkp]
      by_cases hm : k ∈ dkeys rest
      · rw [if_pos hm, if_pos (hmc.mpr hm)]
        rfl
      · rw [if_neg hm, if_neg (fun h2 => hm (hmc.mp h2))]
        rfl

theorem firstOccsFrom_congr (s₁ s₂ l0 : List String) (h : ∀ a, a ∈ s₁ ↔ a ∈ s₂) :
    firstOccsFrom s₁ l0 = firstOccsFrom s₂ l0 := by
  induction l0 generalizing s₁ s₂ with
  | nil => rfl
  | cons k ks ih =>
    rw [firstOccsFrom_cons, firstOccsFrom_cons]
    by_cases hc : k ∈ s₁
    · rw [if_pos hc, if_pos ((h k).mp hc)]
      exact ih s₁ s₂ h
    · rw [if_neg hc, if_neg (fun h2 => hc ((h k).mpr h2))]
      rw [ih (k :: s₁) (k :: s₂) (fun a => by simp only [List.mem_cons, h a])]

theorem dkeys_accumBy (key : α → String) (val : α → Nat) (xs : List α)
    (d : List (String × Nat)) :
    dkeys (accumBy key val xs d) = dkeys d ++ firstOccsFrom (dkeys d) (xs.map key) := by
  induction xs generalizing d with
  | nil => simp [accumBy, firstOccsFrom]
  | cons x xs ih =>
    rw [accumBy, ih, List.map_cons, firstOccsFrom_cons, dkeys_bump]
    by_cases hm : key x ∈ dkeys d
    · rw [if_pos hm, if_pos hm]
    · rw [if_neg hm, if_neg hm]
      rw [firstOccsFrom_congr (dkeys d ++ [key x]) (key x :: dkeys d) (xs.map key)
        (fun a => by simp [List.mem_append, List.mem_cons]; tauto)]
      simp [List.append_assoc]

theorem mem_firstOccsFrom (seen l : List String) (a : String) :
    a ∈ firstOccsFrom seen l ↔ a ∈ l ∧ ¬ a ∈ seen := by
  induction l generalizing seen with
  | nil => simp [firstOccsFrom]
  | cons k ks ih =>
    rw [firstOccsFrom_cons]
    by_cases hc : k ∈ seen
    · rw [if_pos hc, ih]
      simp only [List.mem_cons]
      constructor
      · rintro ⟨hm, hs⟩
        exact ⟨Or.inr hm, hs⟩
      · rintro ⟨rfl | hm, hs⟩
        · exact absurd hc hs
        · exact ⟨hm, hs⟩
    · rw [if_neg hc]
      simp only [List.mem_cons, ih]
      constructor
      · rintro (rfl | ⟨hm, hs⟩)
        · exact ⟨Or.inl rfl, hc⟩
        · exact ⟨Or.inr hm, fun h2 => hs (Or.inr h2)⟩
      · rintro ⟨rfl | hm, hs⟩
        · exact Or.inl rfl
        · by_cases hak : a = k
          · exact Or.inl hak
          · exact Or.inr ⟨hm, fun h2 => h2.elim hak hs⟩

theorem nodup_firstOccsFrom (seen l : List String) : (firstOccsFrom seen l).Nodup := by
  induction l generalizing seen with
  | nil => exact List.nodup_nil
  | cons k ks ih =>
    rw [firstOccsFrom_cons]
    by_cases hc : k ∈ seen
    · rw [if_pos hc]
      exact ih seen
    · rw [if_neg hc]
      refine List.Nodup.cons ?_ (ih (k :: seen))
      intro hm
      exact ((mem_firstOccsFrom (k :: seen) ks k).mp hm).2 (List.mem_cons_self k seen)

theorem nodup_dkeys_accumBy (key : α → String) (val : α → Nat) (xs : List α) :
    (dkeys (accumBy key val xs [])).Nodup := by
  rw [dkeys_accumBy]
  simp only [dkeys, List.map_nil, List.nil_append]
  exact nodup_firstOccsFrom [] (xs.map key)

theorem alookup_eq_some_of_mem (d : List (String × Nat)) (k : String) (n : Nat)
    (hnd : (dkeys d).Nodup) (hmem : (k, n) ∈ d) : alookup k d = some n := by
  induction d with
  | nil => simp at hmem
  | cons p rest ih =>
    simp only [dkeys, List.map_cons, List.nodup_cons] at hnd
    rcases List.mem_cons.mp hmem with hp | hmem2
    · rw [← hp]
      simp [alookup]
    · have hne : (p.1 == k) = false := by
        simp only [beq_eq_false_iff_ne, ne_eq]
        intro hc
        apply hnd.1
        rw [hc]
        exact List.mem_map_of_mem (fun q => q.1) hmem2
      simp only [alookup, hne, if_false]
      exact ih hnd.2 hmem2

theorem head_le_of_decomp (val : β → Nat) (q r : β) (rest pre post : List β)
    (heq : q :: rest = pre ++ r :: post)
    (hpre : ∀ x ∈ pre, val x < val r) : val q ≤ val r := by
  cases pre with
  | nil =>
    simp only [List.nil_append, List.cons.injEq] at heq
    rw [heq.1]
  | cons p pre2 =>
    simp only [List.cons_append, List.cons.injEq] at heq
    rw [heq.1]
    exact Nat.le_of_lt (hpre p (List.mem_cons_self p pre2))

theorem head_ge_of_decomp (val : β → Nat) (q r : β) (rest pre post : List β)
    (heq : q :: rest = pre ++ r :: post)
    (hpre : ∀ x ∈ pre, val x > val r) : val q ≥ val r := by
  cases pre with
  | nil =>
    simp only [List.nil_append, List.cons.injEq] at heq
    exact Nat.le_of_eq (congrArg val heq.1).symm
  | cons p pre2 =>
    simp only [List.cons_append, List.cons.injEq] at heq
    have hp := hpre p (List.mem_cons_self p pre2)
    rw [← heq.1] at hp
    exact Nat.le_of_lt hp

theorem foldl_max_decomp (val : β → Nat) (l : List β) (acc : β) :
    ∃ pre post,
      acc :: l = pre ++ (l.foldl (fun a q => if val q > val a then q else a) acc) :: post ∧
      (∀ x ∈ pre, val x < val (l.foldl (fun a q => if val q > val a then q else a) acc)) ∧
      (∀ x ∈ post, val x ≤ val (l.foldl (fun a q => if val q > val a then q else a) acc)) := by
  induction l generalizing acc with
  | nil => exact ⟨[], [], rfl, by simp, by simp⟩
  | cons q rest ih =>
    rw [List.foldl_cons]
    by_cases h : val q > val acc
    · rw [if_pos h]
      obtain ⟨pre, post, heq, hpre, hpost⟩ := ih q
      have hqr := head_le_of_decomp val q _ rest pre post heq hpre
      refine ⟨acc :: pre, post, ?_, ?_, hpost⟩
      · rw [List.cons_append, ← heq]
      · intro x hx
        rcases List.mem_cons.mp hx with rfl | hx2
        · exact Nat.lt_of_lt_of_le h hqr
        · exact hpre x hx2
    · rw [if_neg h]
      have hqa : val q ≤ val acc := Nat.le_of_not_lt h
      obtain ⟨pre, post, heq, hpre, hpost⟩ := ih acc
      cases pre with
      | nil =>
        simp only [List.nil_append, List.cons.injEq] at heq
        obtain ⟨h1, h2⟩ := heq
        refine ⟨[], q :: post, ?_, by simp, ?_⟩
        · rw [List.nil_append, ← h1, h2]
        · intro x hx
          rcases List.mem_cons.mp hx with rfl | hx2
          · rw [← h1]
            exact hqa
          · exact hpost x hx2
      | cons p pre2 =>
        simp only [List.cons_append, List.cons.injEq] at heq
        obtain ⟨h1, h2⟩ := heq
        have hpacc : val acc < val (rest.foldl (fun a q => if val q > val a then q else a) acc) := by
          have hp := hpre p (List.mem_cons_self p pre2)
          rw [← h1] at hp
          exact hp
        refine ⟨acc :: q :: pre2, post, ?_, ?_, hpost⟩
        · conv_lhs => rw [h2]
          simp [List.cons_append]
        · intro x hx
          rcases List.mem_cons.mp hx with rfl | hx2
          · exact hpacc
          · rcases List.mem_cons.mp hx2 with rfl | hx3
            · exact Nat.lt_of_le_of_lt hqa hpacc
            · exact hpre x (List.mem_cons_of_mem p hx3)

theorem firstMaxBy_eq_none_iff (val : β → Nat) (l : List β) :
    firstMaxBy val l = none ↔ l = [] := by
  cases l <;> simp [firstMaxBy]

theorem firstMaxBy_spec (val : β → Nat) (l : List β) (b : β)
    (h : firstMaxBy val l = some b) :
    ∃ pre post, l = pre ++ b :: post ∧ (∀ x ∈ pre, val x < val b) ∧
      (∀ x ∈ post, val x ≤ val b) := by
  cases l with
  | nil => simp [firstMaxBy] at h
  | cons a rest =>
    simp only [firstMaxBy, Option.some_inj] at h
    obtain ⟨pre, post, heq, hpre, hpost⟩ := foldl_max_decomp val rest a
    rw [h] at heq hpre hpost
    exact ⟨pre, post, heq, hpre, hpost⟩

theorem foldl_min_decomp (val : β → Nat) (l : List β) (acc : β) :
    ∃ pre post,
      acc :: l = pre ++ (l.foldl (fun a q => if val q < val a then q else a) acc) :: post ∧
      (∀ x ∈ pre, val x > val (l.foldl (fun a q => if val q < val a then q else a) acc)) ∧
      (∀ x ∈ post, val x ≥ val (l.foldl (fun a q => if val q < val a then q else a) acc)) := by
  induction l generalizing acc with
  | nil => exact ⟨[], [], rfl, by simp, by simp⟩
  | cons q rest ih =>
    rw [List.foldl_cons]
    by_cases h : val q < val acc
    · rw [if_pos h]
      obtain ⟨pre, post, heq, hpre, hpost⟩ := ih q
      have hqr := head_ge_of_decomp val q _ rest pre post heq hpre
      refine ⟨acc :: pre, post, ?_, ?_, hpost⟩
      · rw [List.cons_append, ← heq]
      · intro x hx
        rcases List.mem_cons.mp hx with rfl | hx2
        · exact Nat.lt_of_le_of_lt hqr h
        · exact hpre x hx2
    · rw [if_neg h]
      have hqa : val acc ≤ val q := Nat.le_of_not_lt h
      obtain ⟨pre, post, heq, hpre, hpost⟩ := ih acc
      cases pre with
      | nil =>
        simp only [List.nil_append, List.cons.injEq] at heq
        obtain ⟨h1, h2⟩ := heq
        refine ⟨[], q :: post, ?_, by simp, ?_⟩
        · rw [List.nil_append, ← h1, h2]
        · intro x hx
          rcases List.mem_cons.mp hx with rfl | hx2
          · rw [← h1]
            exact hqa
          · exact hpost x hx2
      | cons p pre2 =>
        simp only [List.cons_append, List.cons.injEq] at heq
        obtain ⟨h1, h2⟩ := heq
        have hpacc : val acc > val (rest.foldl (fun a q => if val q < val a then q else a) acc) := by
          have hp := hpre p (List.mem_cons_self p pre2)
          rw [← h1] at hp
          exact hp
        refine ⟨acc :: q :: pre2, post, ?_, ?_, hpost⟩
        · conv_lhs => rw [h2]
          simp [List.cons_append]
        · intro x hx
          rcases List.mem_cons.mp hx with rfl | hx2
          · exact hpacc
          · rcases List.mem_cons.mp hx2 with rfl | hx3
            · exact Nat.lt_of_lt_of_le hpacc hqa
            · exact hpre x (List.mem_cons_of_mem p hx3)

theorem firstMinBy_eq_none_iff (val : β → Nat) (l : List β) :
    firstMinBy val l = none ↔ l = [] := by
  cases l <;> simp [firstMinBy]

theorem firstMinBy_spec (val : β → Nat) (l : List β) (b : β)
    (h : firstMinBy val l = some b) :
    ∃ pre post, l = pre ++ b :: post ∧ (∀ x ∈ pre, val x > val b) ∧
      (∀ x ∈ post, val x ≥ val b) := by
  cases l with
  | nil => simp [firstMinBy] at h
  | cons a rest =>
    simp only [firstMinBy, Option.some_inj] at h
    obtain ⟨pre, post, heq, hpre, hpost⟩ := foldl_min_decomp val rest a
    rw [h] at heq hpre hpost
    exact ⟨pre, post, heq, hpre, hpost⟩

theorem mem_of_alookup_eq_some (d : List (String × Nat)) (k : String) (n : Nat)
    (h : alookup k d = some n) : (k, n) ∈ d := by
  induction d with
  | nil => simp [alookup] at h
  | cons p rest ih =>
    by_cases hp : p.1 = k
    · have hb : (p.1 == k) = true := by simp [hp]
      simp only [alookup, hb, if_true, Option.some_inj] at h
      have hpk : p = (k, n) := by
        cases p
        simp only [Prod.mk.injEq]
        exact ⟨hp, h⟩
      rw [hpk]
      exact List.mem_cons_self (k, n) rest
    · have hb : (p.1 == k) = false := by simp [hp]
      simp only [alookup, hb, if_false] at h
      exact List.mem_cons_of_mem p (ih h)

/-! ## Lemmas: aggregator bookkeeping -/

theorem accumBy_congr (key : α → String) (val₁ val₂ : α → Nat) (xs : List α)
    (d : List (String × Nat)) (h : ∀ x ∈ xs, val₁ x = val₂ x) :
    accumBy key val₁ xs d = accumBy key val₂ xs d := by
  induction xs generalizing d with
  | nil => rfl
  | cons x xs ih =>
    rw [accumBy, accumBy, h x (List.mem_cons_self x xs),
      ih (bump (key x) (val₂ x) d) (fun y hy => h y (List.mem_cons_of_mem x hy))]

/-- On guard-passing votes the guarded value equals `voteValue`. -/
theorem sumPoints_append (l₁ l₂ : List Vote) :
    sumPoints (l₁ ++ l₂) = sumPoints l₁ + sumPoints l₂ := by
  induction l₁ with
  | nil => simp [sumPoints]
  | cons v l₁ ih => simp [sumPoints, ih]; omega

/-- Filtering the votes of a league to the guard-passing ones commutes with the
per-competitor vote filter. -/
theorem get_votes_by_competitor_digit (L : League) (cid : String) :
    (digitVotesOnly L).get_votes_by_competitor cid =
      (L.get_votes_by_competitor cid).filter (fun v => pyIsDigit v.points_assigned) := by
  unfold digitVotesOnly League.get_votes_by_competitor League.get_submissions_by_competitor
  exact List.filter_comm _ _ _

theorem get_votes_for_submission_digit (L : League) (uri : String) :
    (digitVotesOnly L).get_votes_for_submission uri =
      (L.get_votes_for_submission uri).filter (fun v => pyIsDigit v.points_assigned) := by
  unfold digitVotesOnly League.get_votes_for_submission votes_get_by_spotify_uri
  exact List.filter_comm _ _ _

theorem filter_digit_idem (votes : List Vote) :
    (votes.filter (fun v => pyIsDigit v.points_assigned)).filter
      (fun v => pyIsDigit v.points_assigned) =
      votes.filter (fun v => pyIsDigit v.points_assigned) := by
  induction votes with
  | nil => rfl
  | cons v vs ih =>
    by_cases h : pyIsDigit v.points_assigned = true
    · simp [List.filter_cons, h, ih]
    · have h2 : pyIsDigit v.points_assigned = false := by
        cases hb : pyIsDigit v.points_assigned
        · rfl
        · exact absurd hb h
      simp [List.filter_cons, h2, ih]

theorem get_votes_by_competitor_eq (L : League) (c : String) :
    L.get_votes_by_competitor c =
      L.votes.filter (fun v =>
        ((L.submissions.filter (fun s => s.submitter_id == c)).map
          (fun s => s.spotify_uri)).contains v.spotify_uri) := rfl

theorem sumPoints_map_preserve (g : Vote → Vote) (l : List Vote)
    (h : ∀ v, (g v).points_assigned = v.points_assigned) :
    sumPoints (l.map g) = sumPoints l := by
  induction l with
  | nil => rfl
  | cons v vs ih => simp [sumPoints, h v, ih]

/-- Claim C1: for every competitor id, the tallied score equals the sum over
all votes whose track reference belongs to some submission by that competitor
of the parsed value of points_assigned, votes with non-parseable points
contributing nothing. -/
theorem claim_c1 (L : League) (c : String) :
    L.tally_competitor_score c = spec_score_of L c := by
  unfold League.tally_competitor_score spec_score_of
  rw [get_votes_by_competitor_eq, sumPoints_eq_sum_map]
  have hf : ∀ v ∈ L.votes,
      (((L.submissions.filter (fun s => s.submitter_id == c)).map
        (fun s => s.spotify_uri)).contains v.spotify_uri)
      = (L.submissions.any
          (fun s => s.submitter_id == c && s.spotify_uri == v.spotify_uri)) := by
    intro v hv
    cases hL : ((L.submissions.filter (fun s => s.submitter_id == c)).map
        (fun s => s.spotify_uri)).contains v.spotify_uri <;>
      cases hR : L.submissions.any
        (fun s => s.submitter_id == c && s.spotify_uri == v.spotify_uri) <;> try rfl
    · exfalso
      rw [List.any_eq_true] at hR
      obtain ⟨s, hs, hcond⟩ := hR
      simp only [Bool.and_eq_true, beq_iff_eq] at hcond
      have hmem : v.spotify_uri ∈
          (L.submissions.filter (fun s => s.submitter_id == c)).map
            (fun s => s.spotify_uri) := by
        rw [List.mem_map]
        exact ⟨s, List.mem_filter.mpr ⟨hs, by simp [hcond.1]⟩, hcond.2⟩
      rw [← contains_iff] at hmem
      rw [hL] at hmem
      exact Bool.false_ne_true hmem
    · exfalso
      have hm := (contains_iff _ _).mp hL
      rw [List.mem_map] at hm
      obtain ⟨s, hsf, huri⟩ := hm
      rw [List.mem_filter] at hsf
      have hT : L.submissions.any
          (fun s => s.submitter_id == c && s.spotify_uri == v.spotify_uri) = true := by
        rw [List.any_eq_true]
        refine ⟨s, hsf.1, ?_⟩
        simp only [Bool.and_eq_true, beq_iff_eq]
        have h2 := hsf.2
        simp only [beq_iff_eq] at h2
        exact ⟨h2, huri⟩
      rw [hR] at hT
      exact Bool.false_ne_true hT
  rw [List.filter_congr hf]

/-- Claim C4 (code bug): the scoring aggregates are not total.  A vote whose
points_assigned is "²" (U+00B2 SUPERSCRIPT TWO) passes the str.isdigit guard,
because isdigit accepts every Unicode digit character, but int() rejects it
with a ValueError, so the exception escapes every aggregate instead of the
claimed silent exclusion: on a league with such a vote the exception-aware
versions of the competitor score, the round score table, the
highest-scoring-submission accumulation and the generous/critical voter
accumulation all fail. -/
theorem claim_c4 :
    pyIsDigit "²" = true ∧
    pyInt "²" = none ∧
    League.tally_competitor_scoreE ⟨[⟨"c", "C"⟩], [], [⟨"u1", "t1", "a1", "x1", "c", "cr", "cm", "R1", "y"⟩], [⟨"u1", "w", "t", "²", "cm", "R1"⟩]⟩ "c" = none ∧
    League.tally_scores_by_roundE ⟨[⟨"c", "C"⟩], [], [⟨"u1", "t1", "a1", "x1", "c", "cr", "cm", "R1", "y"⟩], [⟨"u1", "w", "t", "²", "cm", "R1"⟩]⟩ "R1" = none ∧
    score_countsE [⟨"u1", "w", "t", "²", "cm", "R1"⟩] = none ∧
    voter_pointsE [⟨"u1", "w", "t", "²", "cm", "R1"⟩] = none := by
  decide

/-- Claim C9: the round score table sums, for each submission in the round,
every vote on that submission's URI irrespective of the vote's own round_id
(rewriting every vote's round_id leaves the table unchanged), and each
submitter with a submission in the round gets an entry, 0 when no numeric
votes exist. -/
theorem claim_c9 (L : League) (rid cid : String) (f : Vote → String) :
    (alookup cid (L.tally_scores_by_round rid) =
      (if (L.get_submissions_by_round rid).any (fun s => s.submitter_id == cid)
       then some ((((L.get_submissions_by_round rid).filter
            (fun s => s.submitter_id == cid)).map
            (fun s => sumPoints (votes_get_by_spotify_uri L.votes s.spotify_uri))).sum)
       else none)) ∧
    ({ L with votes := L.votes.map (fun v => { v with round_id := f v }) } :
        League).tally_scores_by_round rid = L.tally_scores_by_round rid := by
  constructor
  · unfold League.tally_scores_by_round
    rw [alookup_accumBy]
    rfl
  · unfold League.tally_scores_by_round
    apply accumBy_congr
    intro s hs
    show sumPoints ((L.votes.map (fun v => { v with round_id := f v })).filter
      (fun v => v.spotify_uri == s.spotify_uri)) = _
    rw [List.filter_map]
    exact sumPoints_map_preserve _ _ (fun v => rfl)

/-! ## Lemmas: the leaderboard sort -/

theorem perm_insertDesc (e : LBEntry) (l : List LBEntry) :
    List.Perm (insertDesc e l) (e :: l) := by
  induction l with
  | nil => exact List.Perm.refl [e]
  | cons f rest ih =>
    unfold insertDesc
    by_cases h : f.score ≤ e.score
    · rw [if_pos h]
    · rw [if_neg h]
      exact List.Perm.trans (List.Perm.cons f ih) (List.Perm.swap e f rest)

theorem perm_sortDesc (l : List LBEntry) : List.Perm (sortDesc l) l := by
  induction l with
  | nil => exact List.Perm.refl []
  | cons e rest ih =>
    exact List.Perm.trans (perm_insertDesc e (sortDesc rest)) (List.Perm.cons e ih)

theorem pairwise_insertDesc (e : LBEntry) (l : List LBEntry)
    (hl : List.Pairwise (fun a b => b.score ≤ a.score) l) :
    List.Pairwise (fun a b => b.score ≤ a.score) (insertDesc e l) := by
  induction l with
  | nil => simp [insertDesc]
  | cons f rest ih =>
    rw [List.pairwise_cons] at hl
    unfold insertDesc
    by_cases h : f.score ≤ e.score
    · rw [if_pos h]
      rw [List.pairwise_cons]
      constructor
      · intro x hx
        rcases List.mem_cons.mp hx with rfl | hx2
        · exact h
        · exact Nat.le_trans (hl.1 x hx2) h
      · rw [List.pairwise_cons]
        exact hl
    · rw [if_neg h]
      rw [List.pairwise_cons]
      constructor
      · intro x hx
        rcases List.mem_cons.mp ((perm_insertDesc e rest).mem_iff.mp hx) with rfl | hx2
        · exact Nat.le_of_lt (Nat.lt_of_not_le h)
        · exact hl.1 x hx2
      · exact ih hl.2

theorem pairwise_sortDesc (l : List LBEntry) :
    List.Pairwise (fun a b => b.score ≤ a.score) (sortDesc l) := by
  induction l with
  | nil => exact List.Pairwise.nil
  | cons e rest ih => exact pairwise_insertDesc e (sortDesc rest) ih

theorem filter_insertDesc_eq_cons (e : LBEntry) (l : List LBEntry) (s : Nat)
    (hs : e.score = s) :
    (insertDesc e l).filter (fun x => x.score == s) =
      e :: l.filter (fun x => x.score == s) := by
  have hpe : (e.score == s) = true := by simp [hs]
  induction l with
  | nil => simp [insertDesc, List.filter_cons, hpe]
  | cons f rest ih =>
    unfold insertDesc
    by_cases h : f.score ≤ e.score
    · rw [if_pos h]
      rw [List.filter_cons, hpe]
      simp only [if_true]
    · rw [if_neg h]
      have hf : (f.score == s) = false := by
        simp only [beq_eq_false_iff_ne, ne_eq]
        intro hc
        rw [hc, ← hs] at h
        exact h (Nat.le_refl e.score)
      rw [List.filter_cons, hf]
      simp only [Bool.false_eq_true, if_false]
      rw [ih, List.filter_cons, hf]
      simp only [Bool.false_eq_true, if_false]

theorem filter_insertDesc_eq_self (e : LBEntry) (l : List LBEntry) (s : Nat)
    (hs : ¬ e.score = s) :
    (insertDesc e l).filter (fun x => x.score == s) =
      l.filter (fun x => x.score == s) := by
  have hpe : (e.score == s) = false := by simp [hs]
  induction l with
  | nil => simp [insertDesc, List.filter_cons, hpe]
  | cons f rest ih =>
    unfold insertDesc
    by_cases h : f.score ≤ e.score
    · rw [if_pos h]
      rw [List.filter_cons, hpe]
      simp only [Bool.false_eq_true, if_false]
    · rw [if_neg h]
      rw [List.filter_cons, ih]
      simp [List.filter_cons]

theorem filter_sortDesc (l : List LBEntry) (s : Nat) :
    (sortDesc l).filter (fun x => x.score == s) = l.filter (fun x => x.score == s) := by
  induction l with
  | nil => rfl
  | cons e rest ih =>
    unfold sortDesc
    by_cases hs : e.score = s
    · rw [filter_insertDesc_eq_cons e (sortDesc rest) s hs, ih, List.filter_cons]
      have hpe : (e.score == s) = true := by simp [hs]
      rw [hpe]
      simp only [if_true]
    · rw [filter_insertDesc_eq_self e (sortDesc rest) s hs, ih, List.filter_cons]
      have hpe : (e.score == s) = false := by simp [hs]
      rw [hpe]
      simp only [Bool.false_eq_true, if_false]

/-- Claim C2: the leaderboard is sorted by score in descending order, and
entries with equal score keep their relative order from the competitor store
(the filter of the sorted list at any score equals the filter of the rows
built in competitor-store order). -/
theorem claim_c2 (L : League) :
    List.Pairwise (fun a b => b.score ≤ a.score) L.get_leaderboard ∧
    ∀ s : Nat, L.get_leaderboard.filter (fun e => e.score == s) =
      L.leaderboard_rows.filter (fun e => e.score == s) := by
  constructor
  · exact pairwise_sortDesc L.leaderboard_rows
  · intro s
    exact filter_sortDesc L.leaderboard_rows s

/-! ## Claims C3 and C5 -/

/-- Claim C3 counterexample: for the votes store the claim fails — adding a
vote whose identity triple (track_ref, voter_id, round_id) is already present
appends anyway, so the stored collection grows instead of being unchanged. -/
theorem claim_c3_counterexample :
    ¬ ((add_vote [⟨"u", "w", "t", "5", "c", "r"⟩] "u" "w" "t2" "4" "c2" "r").2.length =
      ([(⟨"u", "w", "t", "5", "c", "r"⟩ : Vote)]).length) := by
  decide

/-- Claim C3 (amended): for the competitors, rounds and submissions stores a
duplicate-key add is a no-op returning an absent result and leaving the stored
collection untouched; the votes store's add_vote performs no duplicate check:
it always appends the new vote and returns it, even when a vote with the same
(track_ref, voter_id, round_id) triple is already present. -/
theorem claim_c3 (competitors : List Competitor) (rounds : List Round)
    (submissions : List Submission) (votes : List Vote)
    (cid cname rid rt rn rd rp uri t al ar sid scr scm srid svis
      vu vv vt vp vc vr : String) :
    ((competitors_get_by_id competitors cid).isSome = true →
      add_competitor competitors cid cname = (none, competitors)) ∧
    ((rounds_get_by_id rounds rid).isSome = true →
      add_round rounds rid rt rn rd rp = (none, rounds)) ∧
    ((submissions_get_by_spotify_uri submissions uri).isSome = true →
      add_submission submissions uri t al ar sid scr scm srid svis =
        (none, submissions)) ∧
    (add_vote votes vu vv vt vp vc vr =
      (⟨vu, vv, vt, vp, vc, vr⟩, votes ++ [⟨vu, vv, vt, vp, vc, vr⟩])) := by
  refine ⟨?_, ?_, ?_, rfl⟩
  · intro h
    unfold add_competitor
    cases hc : competitors_get_by_id competitors cid with
    | none =>
      rw [hc] at h
      simp at h
    | some c => rfl
  · intro h
    unfold add_round
    cases hc : rounds_get_by_id rounds rid with
    | none =>
      rw [hc] at h
      simp at h
    | some c => rfl
  · intro h
    unfold add_submission
    cases hc : submissions_get_by_spotify_uri submissions uri with
    | none =>
      rw [hc] at h
      simp at h
    | some c => rfl

theorem claim_c3_witness :
    add_competitor [⟨"c1", "A"⟩] "c1" "B" = (none, [⟨"c1", "A"⟩]) ∧
    add_round [⟨"r1", "t", "n", "d", "p"⟩] "r1" "t2" "n2" "d2" "p2" =
      (none, [⟨"r1", "t", "n", "d", "p"⟩]) ∧
    add_submission [⟨"u1", "ti", "al", "ar", "s1", "cr", "cm", "r1", "y"⟩]
        "u1" "ti2" "al2" "ar2" "s2" "cr2" "cm2" "r2" "n" =
      (none, [⟨"u1", "ti", "al", "ar", "s1", "cr", "cm", "r1", "y"⟩]) :=
  let h := claim_c3 [⟨"c1", "A"⟩] [⟨"r1", "t", "n", "d", "p"⟩]
    [⟨"u1", "ti", "al", "ar", "s1", "cr", "cm", "r1", "y"⟩] []
    "c1" "B" "r1" "t2" "n2" "d2" "p2" "u1" "ti2" "al2" "ar2" "s2" "cr2" "cm2" "r2" "n"
    "vu" "vv" "vt" "vp" "vc" "vr"
  ⟨h.1 (by decide), h.2.1 (by decide), h.2.2.1 (by decide)⟩

theorem get_rounds_for_competitor_eq (L : League) (cid : String) :
    L.get_rounds_for_competitor cid =
      L.rounds.filter (fun r =>
        ((L.get_submissions_by_competitor cid).map (fun s => s.round_id)).contains r.id) :=
  rfl

/-- Claim C5 counterexample: a competitor whose single submission carries a
round_id absent from the rounds store participates, per the code, in 0 rounds,
while the number of distinct round ids among the submissions is 1. -/
theorem claim_c5_counterexample :
    ¬ ((League.get_rounds_for_competitor
        ⟨[⟨"c", "C"⟩], [], [⟨"u", "t", "a", "ar", "c", "cr", "cm", "R9", "y"⟩], []⟩
        "c").length =
      (((League.get_submissions_by_competitor
        ⟨[⟨"c", "C"⟩], [], [⟨"u", "t", "a", "ar", "c", "cr", "cm", "R9", "y"⟩], []⟩
        "c").map (fun s => s.round_id)).dedup).length) := by
  decide

/-- Claim C5 (amended): the rounds-participated count equals the number of
round records in the rounds store whose id occurs among the competitor's
submission round ids; when the store's round ids are distinct and every
submission round id is present in the store, it equals the number of distinct
round ids among the competitor's submissions (two submissions sharing a round
id count as one round), and every leaderboard entry's rounds field is this
count for its competitor. -/
theorem claim_c5 (L : League) (cid : String)
    (hnd : (L.rounds.map (fun r => r.id)).Nodup)
    (hpres : ∀ s ∈ L.get_submissions_by_competitor cid,
      s.round_id ∈ L.rounds.map (fun r => r.id)) :
    (L.get_rounds_for_competitor cid).length =
      (((L.get_submissions_by_competitor cid).map (fun s => s.round_id)).dedup).length ∧
    ∀ e ∈ L.get_leaderboard,
      e.rounds = (L.get_rounds_for_competitor e.competitor.id).length := by
  constructor
  · rw [get_rounds_for_competitor_eq]
    have hmap : ((L.rounds.filter (fun r =>
        ((L.get_submissions_by_competitor cid).map (fun s => s.round_id)).contains
          r.id)).map (fun r => r.id)).length =
        (L.rounds.filter (fun r =>
        ((L.get_submissions_by_competitor cid).map (fun s => s.round_id)).contains
          r.id)).length := List.length_map _ _
    rw [← hmap]
    apply List.Perm.length_eq
    apply (List.perm_ext_iff_of_nodup ?_ ?_).mpr
    · intro a
      rw [List.mem_dedup, List.mem_map]
      constructor
      · rintro ⟨r, hr, rfl⟩
        rw [List.mem_filter] at hr
        exact (contains_iff _ _).mp hr.2
      · intro ha
        rw [List.mem_map] at ha
        obtain ⟨s, hs, hsa⟩ := ha
        have hida := hpres s hs
        rw [hsa, List.mem_map] at hida
        obtain ⟨r, hr, hra⟩ := hida
        refine ⟨r, ?_, hra⟩
        rw [List.mem_filter]
        refine ⟨hr, ?_⟩
        rw [hra]
        apply (contains_iff _ _).mpr
        rw [List.mem_map]
        exact ⟨s, hs, hsa⟩
    · exact hnd.sublist (List.Sublist.map _ (List.filter_sublist _))
    · exact List.nodup_dedup _
  · intro e he
    have he2 := (perm_sortDesc L.leaderboard_rows).mem_iff.mp he
    rw [League.leaderboard_rows, List.mem_map] at he2
    obtain ⟨c, hc, rfl⟩ := he2
    rfl

theorem claim_c5_witness :
    ((League.get_rounds_for_competitor
        ⟨[⟨"c", "C"⟩], [⟨"R1", "t", "n", "d", "p"⟩],
          [⟨"u1", "t1", "a1", "x1", "c", "cr", "cm", "R1", "y"⟩,
           ⟨"u2", "t2", "a2", "x2", "c", "cr", "cm", "R1", "y"⟩], []⟩ "c").length =
      (((League.get_submissions_by_competitor
        ⟨[⟨"c", "C"⟩], [⟨"R1", "t", "n", "d", "p"⟩],
          [⟨"u1", "t1", "a1", "x1", "c", "cr", "cm", "R1", "y"⟩,
           ⟨"u2", "t2", "a2", "x2", "c", "cr", "cm", "R1", "y"⟩], []⟩ "c").map
        (fun s => s.round_id)).dedup).length) ∧
    ∀ e ∈ League.get_leaderboard
        ⟨[⟨"c", "C"⟩], [⟨"R1", "t", "n", "d", "p"⟩],
          [⟨"u1", "t1", "a1", "x1", "c", "cr", "cm", "R1", "y"⟩,
           ⟨"u2", "t2", "a2", "x2", "c", "cr", "cm", "R1", "y"⟩], []⟩,
      e.rounds = (League.get_rounds_for_competitor
        ⟨[⟨"c", "C"⟩], [⟨"R1", "t", "n", "d", "p"⟩],
          [⟨"u1", "t1", "a1", "x1", "c", "cr", "cm", "R1", "y"⟩,
           ⟨"u2", "t2", "a2", "x2", "c", "cr", "cm", "R1", "y"⟩], []⟩
        e.competitor.id).length :=
  claim_c5
    ⟨[⟨"c", "C"⟩], [⟨"R1", "t", "n", "d", "p"⟩],
      [⟨"u1", "t1", "a1", "x1", "c", "cr", "cm", "R1", "y"⟩,
       ⟨"u2", "t2", "a2", "x2", "c", "cr", "cm", "R1", "y"⟩], []⟩ "c"
    (by decide) (by decide)

/-! ## Claim C8 -/

theorem alookupQ_assign_self (k : String) (v : Rat) (d : List (String × Rat)) :
    alookupQ k (assignQ k v d) = some v := by
  induction d with
  | nil => simp [assignQ, alookupQ]
  | cons p rest ih =>
    by_cases hp : p.1 = k
    · simp [assignQ, alookupQ, hp]
    · have h1 : (p.1 == k) = false := by simp [hp]
      simp [assignQ, alookupQ, h1, ih]

theorem alookupQ_assign_ne (k k₂ : String) (v : Rat) (d : List (String × Rat))
    (h : k ≠ k₂) : alookupQ k (assignQ k₂ v d) = alookupQ k d := by
  induction d with
  | nil =>
    have hkk : (k₂ == k) = false := by
      simp
      exact fun hc => h hc.symm
    simp [assignQ, alookupQ, hkk]
  | cons p rest ih =>
    by_cases hp : p.1 = k₂
    · have h1 : (p.1 == k₂) = true := by simp [hp]
      have h2 : (p.1 == k) = false := by
        simp [hp]
        exact fun hc => h hc.symm
      simp [assignQ, alookupQ, h1, h2]
    · have h1 : (p.1 == k₂) = false := by simp [hp]
      simp [assignQ, alookupQ, h1, ih]

theorem avg_fold_lookup (L : League) (cs : List Competitor) (k : String)
    (d : List (String × Rat)) :
    alookupQ k (cs.foldl
      (fun d2 c =>
        let subs := L.get_submissions_by_competitor c.id
        if subs.isEmpty then d2
        else assignQ c.id (((subs.map L.sub_points).sum : Rat) / (subs.length : Rat)) d2)
      d) =
    if cs.any (fun c => c.id == k &&
        !(L.get_submissions_by_competitor c.id).isEmpty)
    then some ((((L.get_submissions_by_competitor k).map L.sub_points).sum : Rat) /
        ((L.get_submissions_by_competitor k).length : Rat))
    else alookupQ k d := by
  induction cs generalizing d with
  | nil => simp
  | cons c cs ih =>
    rw [List.foldl_cons, List.any_cons]
    by_cases hemp : (L.get_submissions_by_competitor c.id).isEmpty = true
    · have hcond : (c.id == k && !(L.get_submissions_by_competitor c.id).isEmpty) = false := by
        rw [hemp]
        simp
      rw [hcond]
      simp only [Bool.false_or]
      rw [show (if (L.get_submissions_by_competitor c.id).isEmpty then d
        else assignQ c.id (((( L.get_submissions_by_competitor c.id).map L.sub_points).sum : Rat) /
          ((L.get_submissions_by_competitor c.id).length : Rat)) d) = d from by rw [if_pos hemp]]
      exact ih d
    · have hemp2 : (L.get_submissions_by_competitor c.id).isEmpty = false := by
        cases hb : (L.get_submissions_by_competitor c.id).isEmpty
        · rfl
        · exact absurd hb hemp
      rw [show (if (L.get_submissions_by_competitor c.id).isEmpty then d
        else assignQ c.id ((((L.get_submissions_by_competitor c.id).map L.sub_points).sum : Rat) /
          ((L.get_submissions_by_competitor c.id).length : Rat)) d) =
        assignQ c.id ((((L.get_submissions_by_competitor c.id).map L.sub_points).sum : Rat) /
          ((L.get_submissions_by_competitor c.id).length : Rat)) d from by rw [if_neg hemp]]
      by_cases hck : c.id = k
      · have hcond : (c.id == k && !(L.get_submissions_by_competitor c.id).isEmpty) = true := by
          rw [hemp2]
          simp [hck]
        rw [hcond]
        simp only [Bool.true_or, if_true]
        rw [ih]
        by_cases hany : cs.any (fun c => c.id == k &&
            !(L.get_submissions_by_competitor c.id).isEmpty) = true
        · rw [if_pos hany]
        · rw [if_neg hany, hck]
          exact alookupQ_assign_self k _ d
      · have hcond : (c.id == k && !(L.get_submissions_by_competitor c.id).isEmpty) = false := by
          have : (c.id == k) = false := by simp [hck]
          rw [this]
          simp
        rw [hcond]
        simp only [Bool.false_or]
        rw [ih, alookupQ_assign_ne k c.id _ d (fun hc => hck hc.symm)]

theorem tally_empty_subs (L : League) (cid : String)
    (h : L.get_submissions_by_competitor cid = []) :
    L.tally_competitor_score cid = 0 := by
  rw [League.tally_competitor_score, get_votes_by_competitor_eq]
  rw [show L.submissions.filter (fun s => s.submitter_id == cid) = [] from h]
  simp [sumPoints]

theorem rounds_empty_subs (L : League) (cid : String)
    (h : L.get_submissions_by_competitor cid = []) :
    L.get_rounds_for_competitor cid = [] := by
  rw [get_rounds_for_competitor_eq, h]
  simp

/-- Claim C8: a competitor with zero submissions is absent from the
average-points mapping yet still appears on the leaderboard with score 0 and
rounds 0; a competitor with submissions gets their total guarded points over
all submissions divided by the submission count. -/
theorem claim_c8 (L : League) (cid : String) :
    ((L.get_submissions_by_competitor cid).isEmpty = true →
      alookupQ cid (average_points_per_competitor L) = none) ∧
    (cid ∈ L.competitors.map (fun c => c.id) →
      (L.get_submissions_by_competitor cid).isEmpty = false →
      alookupQ cid (average_points_per_competitor L) =
        some ((((L.get_submissions_by_competitor cid).map L.sub_points).sum : Rat) /
          ((L.get_submissions_by_competitor cid).length : Rat))) ∧
    (cid ∈ L.competitors.map (fun c => c.id) →
      (L.get_submissions_by_competitor cid).isEmpty = true →
      ∃ e ∈ L.get_leaderboard, e.competitor.id = cid ∧ e.score = 0 ∧ e.rounds = 0) := by
  refine ⟨?_, ?_, ?_⟩
  · intro hemp
    rw [average_points_per_competitor, avg_fold_lookup]
    have hany : L.competitors.any (fun c => c.id == cid &&
        !(L.get_submissions_by_competitor c.id).isEmpty) = false := by
      cases hb : L.competitors.any (fun c => c.id == cid &&
          !(L.get_submissions_by_competitor c.id).isEmpty)
      · rfl
      · exfalso
        rw [List.any_eq_true] at hb
        obtain ⟨c, hc, hcond⟩ := hb
        rw [Bool.and_eq_true] at hcond
        have hid : c.id = cid := by
          have := hcond.1
          rwa [beq_iff_eq] at this
        rw [hid, hemp] at hcond
        simp at hcond
    rw [hany]
    simp [alookupQ]
  · intro hmem hne
    rw [average_points_per_competitor, avg_fold_lookup]
    have hany : L.competitors.any (fun c => c.id == cid &&
        !(L.get_submissions_by_competitor c.id).isEmpty) = true := by
      rw [List.any_eq_true]
      rw [List.mem_map] at hmem
      obtain ⟨c, hc, hcid⟩ := hmem
      refine ⟨c, hc, ?_⟩
      rw [Bool.and_eq_true]
      constructor
      · rw [beq_iff_eq]
        exact hcid
      · rw [hcid, hne]
        rfl
    rw [hany]
    simp
  · intro hmem hemp
    rw [List.mem_map] at hmem
    obtain ⟨c, hc, hcid⟩ := hmem
    have hsub : L.get_submissions_by_competitor cid = [] :=
      List.isEmpty_iff.mp hemp
    refine ⟨L.mkEntry c, ?_, ?_, ?_, ?_⟩
    · apply (perm_sortDesc L.leaderboard_rows).mem_iff.mpr
      rw [League.leaderboard_rows, List.mem_map]
      exact ⟨c, hc, rfl⟩
    · exact hcid
    · show L.tally_competitor_score c.id = 0
      rw [hcid]
      exact tally_empty_subs L cid hsub
    · show (L.get_rounds_for_competitor c.id).length = 0
      rw [hcid, rounds_empty_subs L cid hsub]
      rfl

theorem claim_c8_witness :
    (alookupQ "z" (average_points_per_competitor ⟨[⟨"z", "Z"⟩, ⟨"c", "C"⟩], [], [⟨"u1", "t1", "a1", "x1", "c", "cr", "cm", "R1", "y"⟩], [⟨"u1", "w", "t", "6", "cm", "R1"⟩]⟩) = none) ∧
    (alookupQ "c" (average_points_per_competitor ⟨[⟨"z", "Z"⟩, ⟨"c", "C"⟩], [], [⟨"u1", "t1", "a1", "x1", "c", "cr", "cm", "R1", "y"⟩], [⟨"u1", "w", "t", "6", "cm", "R1"⟩]⟩) =
      some ((((League.get_submissions_by_competitor ⟨[⟨"z", "Z"⟩, ⟨"c", "C"⟩], [], [⟨"u1", "t1", "a1", "x1", "c", "cr", "cm", "R1", "y"⟩], [⟨"u1", "w", "t", "6", "cm", "R1"⟩]⟩ "c").map (League.sub_points ⟨[⟨"z", "Z"⟩, ⟨"c", "C"⟩], [], [⟨"u1", "t1", "a1", "x1", "c", "cr", "cm", "R1", "y"⟩], [⟨"u1", "w", "t", "6", "cm", "R1"⟩]⟩)).sum : Rat) / ((League.get_submissions_by_competitor ⟨[⟨"z", "Z"⟩, ⟨"c", "C"⟩], [], [⟨"u1", "t1", "a1", "x1", "c", "cr", "cm", "R1", "y"⟩], [⟨"u1", "w", "t", "6", "cm", "R1"⟩]⟩ "c").length : Rat))) ∧
    (∃ e ∈ League.get_leaderboard ⟨[⟨"z", "Z"⟩, ⟨"c", "C"⟩], [], [⟨"u1", "t1", "a1", "x1", "c", "cr", "cm", "R1", "y"⟩], [⟨"u1", "w", "t", "6", "cm", "R1"⟩]⟩,
      e.competitor.id = "z" ∧ e.score = 0 ∧ e.rounds = 0) :=
  ⟨(claim_c8 ⟨[⟨"z", "Z"⟩, ⟨"c", "C"⟩], [], [⟨"u1", "t1", "a1", "x1", "c", "cr", "cm", "R1", "y"⟩], [⟨"u1", "w", "t", "6", "cm", "R1"⟩]⟩ "z").1 (by decide),
   (claim_c8 ⟨[⟨"z", "Z"⟩, ⟨"c", "C"⟩], [], [⟨"u1", "t1", "a1", "x1", "c", "cr", "cm", "R1", "y"⟩], [⟨"u1", "w", "t", "6", "cm", "R1"⟩]⟩ "c").2.1 (by decide) (by decide),
   (claim_c8 ⟨[⟨"z", "Z"⟩, ⟨"c", "C"⟩], [], [⟨"u1", "t1", "a1", "x1", "c", "cr", "cm", "R1", "y"⟩], [⟨"u1", "w", "t", "6", "cm", "R1"⟩]⟩ "z").2.2 (by decide) (by decide)⟩

/-! ## Claim C6 -/

theorem best_fold_some (L : League) (rest : List Submission) (b : Submission) :
    rest.foldl
      (fun acc sub =>
        if (L.sub_points sub : Int) > acc.2 then (some sub, (L.sub_points sub : Int))
        else acc)
      ((some b : Option Submission), (L.sub_points b : Int)) =
    ((some (rest.foldl (fun a q => if L.sub_points q > L.sub_points a then q else a) b) :
        Option Submission),
     (L.sub_points (rest.foldl (fun a q => if L.sub_points q > L.sub_points a then q else a) b) :
        Int)) := by
  induction rest generalizing b with
  | nil => rfl
  | cons q rest ih =>
    rw [List.foldl_cons, List.foldl_cons]
    by_cases h : L.sub_points q > L.sub_points b
    · have hInt : ((L.sub_points q : Int) > ((some b : Option Submission),
        (L.sub_points b : Int)).2) := by
        simp only []
        exact_mod_cast h
      rw [if_pos hInt, if_pos h]
      exact ih q
    · have hInt : ¬ ((L.sub_points q : Int) > ((some b : Option Submission),
        (L.sub_points b : Int)).2) := by
        simp only []
        exact_mod_cast h
      rw [if_neg hInt, if_neg h]
      exact ih b

theorem best_submission_eq (L : League) (cid : String) :
    best_submission L cid =
      (firstMaxBy L.sub_points (L.get_submissions_by_competitor cid)).map
        (fun s => (s, (L.sub_points s : Int))) := by
  unfold best_submission
  cases hsubs : L.get_submissions_by_competitor cid with
  | nil => rfl
  | cons a rest =>
    rw [List.foldl_cons]
    have h0 : ((L.sub_points a : Int) > ((none : Option Submission), (-1 : Int)).2) := by
      simp only []
      exact Int.lt_of_lt_of_le (by decide) (Int.natCast_nonneg _)
    rw [if_pos h0, best_fold_some]
    rfl

/-- Claim C6: the best-submission entry is the first submission, in the order
of the competitor's submissions, whose guarded point total strictly exceeds
every earlier one and is not less than every later one; absent when the
competitor has no submissions. -/
theorem claim_c6 (L : League) (cid : String) :
    (L.get_submissions_by_competitor cid = [] → best_submission L cid = none) ∧
    (L.get_submissions_by_competitor cid ≠ [] →
      ∃ pre s post,
        L.get_submissions_by_competitor cid = pre ++ s :: post ∧
        best_submission L cid = some (s, (L.sub_points s : Int)) ∧
        (∀ x ∈ pre, L.sub_points x < L.sub_points s) ∧
        (∀ x ∈ post, L.sub_points x ≤ L.sub_points s)) := by
  constructor
  · intro h
    rw [best_submission_eq, h]
    rfl
  · intro h
    rw [best_submission_eq]
    cases hm : firstMaxBy L.sub_points (L.get_submissions_by_competitor cid) with
    | none => exact absurd ((firstMaxBy_eq_none_iff _ _).mp hm) h
    | some s =>
      obtain ⟨pre, post, heq, hpre, hpost⟩ :=
        firstMaxBy_spec L.sub_points (L.get_submissions_by_competitor cid) s hm
      exact ⟨pre, s, post, heq, rfl, hpre, hpost⟩

theorem claim_c6_witness :
    ∃ pre s post,
      League.get_submissions_by_competitor ⟨[⟨"c", "C"⟩], [⟨"R1", "t", "n", "d", "p"⟩], [⟨"u1", "t1", "a1", "x1", "c", "cr", "cm", "R1", "y"⟩, ⟨"u2", "t2", "a2", "x2", "c", "cr", "cm", "R1", "y"⟩], [⟨"u1", "w", "t", "3", "cm", "R1"⟩, ⟨"u2", "w", "t", "3", "cm", "R1"⟩]⟩ "c" = pre ++ s :: post ∧
      best_submission ⟨[⟨"c", "C"⟩], [⟨"R1", "t", "n", "d", "p"⟩], [⟨"u1", "t1", "a1", "x1", "c", "cr", "cm", "R1", "y"⟩, ⟨"u2", "t2", "a2", "x2", "c", "cr", "cm", "R1", "y"⟩], [⟨"u1", "w", "t", "3", "cm", "R1"⟩, ⟨"u2", "w", "t", "3", "cm", "R1"⟩]⟩ "c" = some (s, (League.sub_points ⟨[⟨"c", "C"⟩], [⟨"R1", "t", "n", "d", "p"⟩], [⟨"u1", "t1", "a1", "x1", "c", "cr", "cm", "R1", "y"⟩, ⟨"u2", "t2", "a2", "x2", "c", "cr", "cm", "R1", "y"⟩], [⟨"u1", "w", "t", "3", "cm", "R1"⟩, ⟨"u2", "w", "t", "3", "cm", "R1"⟩]⟩ s : Int)) ∧
      (∀ x ∈ pre, League.sub_points ⟨[⟨"c", "C"⟩], [⟨"R1", "t", "n", "d", "p"⟩], [⟨"u1", "t1", "a1", "x1", "c", "cr", "cm", "R1", "y"⟩, ⟨"u2", "t2", "a2", "x2", "c", "cr", "cm", "R1", "y"⟩], [⟨"u1", "w", "t", "3", "cm", "R1"⟩, ⟨"u2", "w", "t", "3", "cm", "R1"⟩]⟩ x < League.sub_points ⟨[⟨"c", "C"⟩], [⟨"R1", "t", "n", "d", "p"⟩], [⟨"u1", "t1", "a1", "x1", "c", "cr", "cm", "R1", "y"⟩, ⟨"u2", "t2", "a2", "x2", "c", "cr", "cm", "R1", "y"⟩], [⟨"u1", "w", "t", "3", "cm", "R1"⟩, ⟨"u2", "w", "t", "3", "cm", "R1"⟩]⟩ s) ∧
      (∀ x ∈ post, League.sub_points ⟨[⟨"c", "C"⟩], [⟨"R1", "t", "n", "d", "p"⟩], [⟨"u1", "t1", "a1", "x1", "c", "cr", "cm", "R1", "y"⟩, ⟨"u2", "t2", "a2", "x2", "c", "cr", "cm", "R1", "y"⟩], [⟨"u1", "w", "t", "3", "cm", "R1"⟩, ⟨"u2", "w", "t", "3", "cm", "R1"⟩]⟩ x ≤ League.sub_points ⟨[⟨"c", "C"⟩], [⟨"R1", "t", "n", "d", "p"⟩], [⟨"u1", "t1", "a1", "x1", "c", "cr", "cm", "R1", "y"⟩, ⟨"u2", "t2", "a2", "x2", "c", "cr", "cm", "R1", "y"⟩], [⟨"u1", "w", "t", "3", "cm", "R1"⟩, ⟨"u2", "w", "t", "3", "cm", "R1"⟩]⟩ s) :=
  (claim_c6 ⟨[⟨"c", "C"⟩], [⟨"R1", "t", "n", "d", "p"⟩], [⟨"u1", "t1", "a1", "x1", "c", "cr", "cm", "R1", "y"⟩, ⟨"u2", "t2", "a2", "x2", "c", "cr", "cm", "R1", "y"⟩], [⟨"u1", "w", "t", "3", "cm", "R1"⟩, ⟨"u2", "w", "t", "3", "cm", "R1"⟩]⟩ "c").2 (by decide)

/-! ## Claim C7: supporting lemmas -/

theorem findIdx_map_beq (l : List Vote) (key : Vote → String) (k : String) :
    (l.map key).findIdx (fun a => a == k) = l.findIdx (fun v => key v == k) := by
  induction l with
  | nil => rfl
  | cons v vs ih =>
    rw [List.map_cons, List.findIdx_cons (fun a => a == k) (key v) (vs.map key),
      List.findIdx_cons (fun v => key v == k) v vs, ih]

theorem any_filter_eq (l : List Vote) (g p : Vote → Bool) :
    (l.filter g).any p = l.any (fun v => p v && g v) := by
  induction l with
  | nil => rfl
  | cons v vs ih =>
    rw [List.filter_cons, List.any_cons]
    by_cases h : g v = true
    · rw [if_pos h, List.any_cons, ih, h, Bool.and_true]
    · have h2 : g v = false := by
        cases hb : g v
        · rfl
        · exact absurd hb h
      rw [if_neg h, ih, h2, Bool.and_false, Bool.false_or]

theorem findIdx_filter_mono (g p₁ p₂ : Vote → Bool) (l : List Vote)
    (h : (l.filter g).findIdx p₁ ≤ (l.filter g).findIdx p₂) :
    l.findIdx (fun v => p₁ v && g v) ≤ l.findIdx (fun v => p₂ v && g v) := by
  induction l with
  | nil => exact Nat.le_refl _
  | cons x xs ih =>
    rw [List.findIdx_cons (fun v => p₁ v && g v) x xs,
      List.findIdx_cons (fun v => p₂ v && g v) x xs]
    by_cases hg : g x = true
    · rw [List.filter_cons, if_pos hg,
        List.findIdx_cons p₁ x (xs.filter g), List.findIdx_cons p₂ x (xs.filter g)] at h
      by_cases h1 : p₁ x = true
      · rw [h1, hg]
        simp
      · have h1f : p₁ x = false := by
          cases hb : p₁ x
          · rfl
          · exact absurd hb h1
        by_cases h2 : p₂ x = true
        · rw [h1f, h2] at h
          simp at h
        · have h2f : p₂ x = false := by
            cases hb : p₂ x
            · rfl
            · exact absurd hb h2
          rw [h1f, h2f] at h
          simp only [Bool.cond_false] at h
          rw [h1f, h2f, hg]
          simp only [Bool.false_and, Bool.cond_false]
          exact Nat.succ_le_succ (ih (Nat.le_of_succ_le_succ h))
    · have hgf : g x = false := by
        cases hb : g x
        · rfl
        · exact absurd hb hg
      rw [List.filter_cons, if_neg hg] at h
      rw [hgf, Bool.and_false, Bool.and_false]
      simp only [Bool.cond_false]
      exact Nat.succ_le_succ (ih h)

theorem firstOccsFrom_before (l : List String) (seen P M S : List String) (k₁ k₂ : String)
    (hdec : firstOccsFrom seen l = P ++ k₁ :: M ++ k₂ :: S) :
    l.findIdx (fun a => a == k₁) ≤ l.findIdx (fun a => a == k₂) := by
  induction l generalizing seen P M S with
  | nil =>
    exfalso
    rw [show firstOccsFrom seen [] = [] from rfl] at hdec
    exact absurd hdec.symm (by simp)
  | cons x ks ih =>
    rw [firstOccsFrom_cons] at hdec
    by_cases hc : x ∈ seen
    · rw [if_pos hc] at hdec
      have hk1 : k₁ ∈ firstOccsFrom seen ks := by
        rw [hdec]
        simp
      have hk2 : k₂ ∈ firstOccsFrom seen ks := by
        rw [hdec]
        simp
      have hx1 : (x == k₁) = false := by
        simp only [beq_eq_false_iff_ne, ne_eq]
        intro hxe
        exact ((mem_firstOccsFrom seen ks k₁).mp hk1).2 (hxe ▸ hc)
      have hx2 : (x == k₂) = false := by
        simp only [beq_eq_false_iff_ne, ne_eq]
        intro hxe
        exact ((mem_firstOccsFrom seen ks k₂).mp hk2).2 (hxe ▸ hc)
      rw [List.findIdx_cons (fun a => a == k₁) x ks,
        List.findIdx_cons (fun a => a == k₂) x ks, hx1, hx2]
      simp only [Bool.cond_false]
      exact Nat.succ_le_succ (ih seen P M S hdec)
    · rw [if_neg hc] at hdec
      cases P with
      | nil =>
        rw [List.nil_append] at hdec
        injection hdec with h1 h2
        rw [List.findIdx_cons (fun a => a == k₁) x ks]
        have hx1 : (x == k₁) = true := by simp [h1]
        rw [hx1]
        simp only [Bool.cond_true]
        exact Nat.zero_le _
      | cons p P2 =>
        rw [List.cons_append] at hdec
        injection hdec with h1 hdec2
        have hk1 : k₁ ∈ firstOccsFrom (x :: seen) ks := by
          rw [hdec2]
          simp
        have hk2 : k₂ ∈ firstOccsFrom (x :: seen) ks := by
          rw [hdec2]
          simp
        have hx1 : (x == k₁) = false := by
          simp only [beq_eq_false_iff_ne, ne_eq]
          intro hxe
          exact ((mem_firstOccsFrom (x :: seen) ks k₁).mp hk1).2
            (by rw [← hxe]; exact List.mem_cons_self x seen)
        have hx2 : (x == k₂) = false := by
          simp only [beq_eq_false_iff_ne, ne_eq]
          intro hxe
          exact ((mem_firstOccsFrom (x :: seen) ks k₂).mp hk2).2
            (by rw [← hxe]; exact List.mem_cons_self x seen)
        rw [List.findIdx_cons (fun a => a == k₁) x ks,
          List.findIdx_cons (fun a => a == k₂) x ks, hx1, hx2]
        simp only [Bool.cond_false]
        exact Nat.succ_le_succ (ih (x :: seen) P2 M S hdec2)

theorem voter_points_eq (votes : List Vote) :
    voter_points votes =
      accumBy (fun v => v.voter_id) (fun v => pyIntVal v.points_assigned)
        (votes.filter (fun v => pyIsDigit v.points_assigned)) [] :=
  accumByG_eq_filter _ _ _ votes []

theorem alookup_voter_points (votes : List Vote) (w : String) :
    alookup w (voter_points votes) =
      if hasDigitVote w votes = true then some (totalGiven w votes) else none := by
  rw [voter_points_eq, alookup_accumBy]
  have hany := any_filter_eq votes (fun v => pyIsDigit v.points_assigned)
    (fun v => v.voter_id == w)
  show (if (votes.filter (fun v => pyIsDigit v.points_assigned)).any
      (fun x => x.voter_id == w) = true
    then some (sumFor (fun v => v.voter_id) (fun v => pyIntVal v.points_assigned) w
      (votes.filter (fun v => pyIsDigit v.points_assigned)))
    else none) = _
  rw [hany]
  rfl

theorem nodup_voter_points (votes : List Vote) : (dkeys (voter_points votes)).Nodup := by
  rw [voter_points_eq]
  exact nodup_dkeys_accumBy _ _ _

theorem dkeys_voter_points (votes : List Vote) :
    dkeys (voter_points votes) =
      firstOccsFrom []
        ((votes.filter (fun v => pyIsDigit v.points_assigned)).map (fun v => v.voter_id)) := by
  rw [voter_points_eq, dkeys_accumBy]
  rfl

theorem voter_points_nil_iff (votes : List Vote) :
    (voter_points votes = []) ↔
      votes.filter (fun v => pyIsDigit v.points_assigned) = [] := by
  constructor
  · intro h
    cases hd : votes.filter (fun v => pyIsDigit v.points_assigned) with
    | nil => rfl
    | cons v vs =>
      exfalso
      have hk := dkeys_voter_points votes
      rw [h, hd, List.map_cons, firstOccsFrom_cons] at hk
      simp [dkeys] at hk
  · intro h
    rw [voter_points_eq, h]
    rfl

theorem mem_voter_points_of_digit (votes : List Vote) (w : String)
    (h : hasDigitVote w votes = true) :
    (w, totalGiven w votes) ∈ voter_points votes := by
  apply mem_of_alookup_eq_some
  rw [alookup_voter_points, if_pos h]

theorem voter_points_val (votes : List Vote) (w : String) (n : Nat)
    (hm : (w, n) ∈ voter_points votes) :
    hasDigitVote w votes = true ∧ n = totalGiven w votes := by
  have halk := alookup_eq_some_of_mem _ _ _ (nodup_voter_points votes) hm
  rw [alookup_voter_points] at halk
  by_cases h : hasDigitVote w votes = true
  · rw [if_pos h] at halk
    exact ⟨h, (Option.some_inj.mp halk).symm⟩
  · rw [if_neg h] at halk
    exact absurd halk (by simp)

theorem voter_points_order (votes : List Vote) (pre post : List (String × Nat))
    (w : String) (n : Nat) (w₂ : String) (n₂ : Nat)
    (hdec : voter_points votes = pre ++ (w, n) :: post)
    (hmem : (w₂, n₂) ∈ post) :
    firstDigitIdx w votes ≤ firstDigitIdx w₂ votes := by
  obtain ⟨q₁, q₂, hq⟩ := List.append_of_mem hmem
  have hkeys := dkeys_voter_points votes
  rw [hdec, hq] at hkeys
  have hkeys2 : firstOccsFrom []
      ((votes.filter (fun v => pyIsDigit v.points_assigned)).map (fun v => v.voter_id)) =
      pre.map (fun p => p.1) ++ w :: q₁.map (fun p => p.1) ++ w₂ :: q₂.map (fun p => p.1) := by
    rw [← hkeys]
    simp [dkeys]
  have hidx := firstOccsFrom_before
    ((votes.filter (fun v => pyIsDigit v.points_assigned)).map (fun v => v.voter_id))
    [] (pre.map (fun p => p.1)) (q₁.map (fun p => p.1)) (q₂.map (fun p => p.1))
    w w₂ hkeys2
  rw [findIdx_map_beq, findIdx_map_beq] at hidx
  exact findIdx_filter_mono _ _ _ _ hidx

/-- Claim C7: most_generous_voter and most_critical_voter return the voter
with the maximum, respectively minimum, total numeric points given; both are
absent exactly when no vote has numeric points; a voter with only non-numeric
votes can appear in neither; ties go to the voter whose first numeric vote
occurs earliest in the vote collection. -/
theorem claim_c7 (votes : List Vote) :
    ((most_generous_voter votes = none) ↔
      votes.filter (fun v => pyIsDigit v.points_assigned) = []) ∧
    ((most_critical_voter votes = none) ↔
      votes.filter (fun v => pyIsDigit v.points_assigned) = []) ∧
    (∀ w n, most_generous_voter votes = some (w, n) →
      hasDigitVote w votes = true ∧ n = totalGiven w votes ∧
      (∀ w₂, hasDigitVote w₂ votes = true → totalGiven w₂ votes ≤ n) ∧
      (∀ w₂, hasDigitVote w₂ votes = true → totalGiven w₂ votes = n →
        firstDigitIdx w votes ≤ firstDigitIdx w₂ votes)) ∧
    (∀ w n, most_critical_voter votes = some (w, n) →
      hasDigitVote w votes = true ∧ n = totalGiven w votes ∧
      (∀ w₂, hasDigitVote w₂ votes = true → n ≤ totalGiven w₂ votes) ∧
      (∀ w₂, hasDigitVote w₂ votes = true → totalGiven w₂ votes = n →
        firstDigitIdx w votes ≤ firstDigitIdx w₂ votes)) ∧
    (∀ w, hasDigitVote w votes = false →
      (∀ n, ¬ most_generous_voter votes = some (w, n)) ∧
      (∀ n, ¬ most_critical_voter votes = some (w, n))) := by
  refine ⟨?_, ?_, ?_, ?_, ?_⟩
  · have hgen : (most_generous_voter votes = none) ↔ (voter_points votes = []) := by
      show (firstMaxBy (fun p : String × Nat => p.2) (voter_points votes) = none) ↔ _
      exact firstMaxBy_eq_none_iff _ _
    exact hgen.trans (voter_points_nil_iff votes)
  · have hcrit : (most_critical_voter votes = none) ↔ (voter_points votes = []) := by
      show (firstMinBy (fun p : String × Nat => p.2) (voter_points votes) = none) ↔ _
      exact firstMinBy_eq_none_iff _ _
    exact hcrit.trans (voter_points_nil_iff votes)
  · intro w n hm
    have hmax : firstMaxBy (fun p : String × Nat => p.2) (voter_points votes) =
        some (w, n) := hm
    obtain ⟨pre, post, hdec, hpre, hpost⟩ := firstMaxBy_spec _ _ _ hmax
    have hmem : (w, n) ∈ voter_points votes := by
      rw [hdec]
      simp
    obtain ⟨hdig, hval⟩ := voter_points_val votes w n hmem
    refine ⟨hdig, hval, ?_, ?_⟩
    · intro w₂ h₂
      have hmem₂ := mem_voter_points_of_digit votes w₂ h₂
      rw [hdec] at hmem₂
      rcases List.mem_append.mp hmem₂ with hin | hin
      · exact Nat.le_of_lt (hpre _ hin)
      · rcases List.mem_cons.mp hin with heq | hin2
        · exact Nat.le_of_eq (congrArg Prod.snd heq)
        · exact hpost _ hin2
    · intro w₂ h₂ htot
      by_cases hww : w₂ = w
      · rw [hww]
      · have hmem₂ := mem_voter_points_of_digit votes w₂ h₂
        rw [htot, hdec] at hmem₂
        rcases List.mem_append.mp hmem₂ with hin | hin
        · exact absurd (hpre _ hin) (Nat.lt_irrefl n)
        · rcases List.mem_cons.mp hin with heq | hin2
          · exact absurd (congrArg Prod.fst heq) hww
          · exact voter_points_order votes pre post w n w₂ n hdec hin2
  · intro w n hm
    have hmin : firstMinBy (fun p : String × Nat => p.2) (voter_points votes) =
        some (w, n) := hm
    obtain ⟨pre, post, hdec, hpre, hpost⟩ := firstMinBy_spec _ _ _ hmin
    have hmem : (w, n) ∈ voter_points votes := by
      rw [hdec]
      simp
    obtain ⟨hdig, hval⟩ := voter_points_val votes w n hmem
    refine ⟨hdig, hval, ?_, ?_⟩
    · intro w₂ h₂
      have hmem₂ := mem_voter_points_of_digit votes w₂ h₂
      rw [hdec] at hmem₂
      rcases List.mem_append.mp hmem₂ with hin | hin
      · exact Nat.le_of_lt (hpre _ hin)
      · rcases List.mem_cons.mp hin with heq | hin2
        · exact Nat.le_of_eq (congrArg Prod.snd heq).symm
        · exact hpost _ hin2
    · intro w₂ h₂ htot
      by_cases hww : w₂ = w
      · rw [hww]
      · have hmem₂ := mem_voter_points_of_digit votes w₂ h₂
        rw [htot, hdec] at hmem₂
        rcases List.mem_append.mp hmem₂ with hin | hin
        · exact absurd (hpre _ hin) (Nat.lt_irrefl n)
        · rcases List.mem_cons.mp hin with heq | hin2
          · exact absurd (congrArg Prod.fst heq) hww
          · exact voter_points_order votes pre post w n w₂ n hdec hin2
  · intro w hw
    constructor
    · intro n hm
      have hmax : firstMaxBy (fun p : String × Nat => p.2) (voter_points votes) =
          some (w, n) := hm
      obtain ⟨pre, post, hdec, _, _⟩ := firstMaxBy_spec _ _ _ hmax
      have hmem : (w, n) ∈ voter_points votes := by
        rw [hdec]
        simp
      have hd := (voter_points_val votes w n hmem).1
      rw [hw] at hd
      exact Bool.false_ne_true hd
    · intro n hm
      have hmin : firstMinBy (fun p : String × Nat => p.2) (voter_points votes) =
          some (w, n) := hm
      obtain ⟨pre, post, hdec, _, _⟩ := firstMinBy_spec _ _ _ hmin
      have hmem : (w, n) ∈ voter_points votes := by
        rw [hdec]
        simp
      have hd := (voter_points_val votes w n hmem).1
      rw [hw] at hd
      exact Bool.false_ne_true hd

theorem claim_c7_witness :
    (hasDigitVote "b" [⟨"u1", "a", "t", "2", "c", "R"⟩, ⟨"u1", "b", "t", "5", "c", "R"⟩, ⟨"u2", "b", "t", "4", "c", "R"⟩, ⟨"u2", "x", "t", "zz", "c", "R"⟩] = true ∧ (9 : Nat) = totalGiven "b" [⟨"u1", "a", "t", "2", "c", "R"⟩, ⟨"u1", "b", "t", "5", "c", "R"⟩, ⟨"u2", "b", "t", "4", "c", "R"⟩, ⟨"u2", "x", "t", "zz", "c", "R"⟩] ∧
     (∀ w₂, hasDigitVote w₂ [⟨"u1", "a", "t", "2", "c", "R"⟩, ⟨"u1", "b", "t", "5", "c", "R"⟩, ⟨"u2", "b", "t", "4", "c", "R"⟩, ⟨"u2", "x", "t", "zz", "c", "R"⟩] = true → totalGiven w₂ [⟨"u1", "a", "t", "2", "c", "R"⟩, ⟨"u1", "b", "t", "5", "c", "R"⟩, ⟨"u2", "b", "t", "4", "c", "R"⟩, ⟨"u2", "x", "t", "zz", "c", "R"⟩] ≤ 9) ∧
     (∀ w₂, hasDigitVote w₂ [⟨"u1", "a", "t", "2", "c", "R"⟩, ⟨"u1", "b", "t", "5", "c", "R"⟩, ⟨"u2", "b", "t", "4", "c", "R"⟩, ⟨"u2", "x", "t", "zz", "c", "R"⟩] = true → totalGiven w₂ [⟨"u1", "a", "t", "2", "c", "R"⟩, ⟨"u1", "b", "t", "5", "c", "R"⟩, ⟨"u2", "b", "t", "4", "c", "R"⟩, ⟨"u2", "x", "t", "zz", "c", "R"⟩] = 9 →
       firstDigitIdx "b" [⟨"u1", "a", "t", "2", "c", "R"⟩, ⟨"u1", "b", "t", "5", "c", "R"⟩, ⟨"u2", "b", "t", "4", "c", "R"⟩, ⟨"u2", "x", "t", "zz", "c", "R"⟩] ≤ firstDigitIdx w₂ [⟨"u1", "a", "t", "2", "c", "R"⟩, ⟨"u1", "b", "t", "5", "c", "R"⟩, ⟨"u2", "b", "t", "4", "c", "R"⟩, ⟨"u2", "x", "t", "zz", "c", "R"⟩])) ∧
    (hasDigitVote "a" [⟨"u1", "a", "t", "2", "c", "R"⟩, ⟨"u1", "b", "t", "5", "c", "R"⟩, ⟨"u2", "b", "t", "4", "c", "R"⟩, ⟨"u2", "x", "t", "zz", "c", "R"⟩] = true ∧ (2 : Nat) = totalGiven "a" [⟨"u1", "a", "t", "2", "c", "R"⟩, ⟨"u1", "b", "t", "5", "c", "R"⟩, ⟨"u2", "b", "t", "4", "c", "R"⟩, ⟨"u2", "x", "t", "zz", "c", "R"⟩] ∧
     (∀ w₂, hasDigitVote w₂ [⟨"u1", "a", "t", "2", "c", "R"⟩, ⟨"u1", "b", "t", "5", "c", "R"⟩, ⟨"u2", "b", "t", "4", "c", "R"⟩, ⟨"u2", "x", "t", "zz", "c", "R"⟩] = true → 2 ≤ totalGiven w₂ [⟨"u1", "a", "t", "2", "c", "R"⟩, ⟨"u1", "b", "t", "5", "c", "R"⟩, ⟨"u2", "b", "t", "4", "c", "R"⟩, ⟨"u2", "x", "t", "zz", "c", "R"⟩]) ∧
     (∀ w₂, hasDigitVote w₂ [⟨"u1", "a", "t", "2", "c", "R"⟩, ⟨"u1", "b", "t", "5", "c", "R"⟩, ⟨"u2", "b", "t", "4", "c", "R"⟩, ⟨"u2", "x", "t", "zz", "c", "R"⟩] = true → totalGiven w₂ [⟨"u1", "a", "t", "2", "c", "R"⟩, ⟨"u1", "b", "t", "5", "c", "R"⟩, ⟨"u2", "b", "t", "4", "c", "R"⟩, ⟨"u2", "x", "t", "zz", "c", "R"⟩] = 2 →
       firstDigitIdx "a" [⟨"u1", "a", "t", "2", "c", "R"⟩, ⟨"u1", "b", "t", "5", "c", "R"⟩, ⟨"u2", "b", "t", "4", "c", "R"⟩, ⟨"u2", "x", "t", "zz", "c", "R"⟩] ≤ firstDigitIdx w₂ [⟨"u1", "a", "t", "2", "c", "R"⟩, ⟨"u1", "b", "t", "5", "c", "R"⟩, ⟨"u2", "b", "t", "4", "c", "R"⟩, ⟨"u2", "x", "t", "zz", "c", "R"⟩])) ∧
    (∀ n, ¬ most_generous_voter [⟨"u1", "a", "t", "2", "c", "R"⟩, ⟨"u1", "b", "t", "5", "c", "R"⟩, ⟨"u2", "b", "t", "4", "c", "R"⟩, ⟨"u2", "x", "t", "zz", "c", "R"⟩] = some ("x", n)) :=
  ⟨(claim_c7 [⟨"u1", "a", "t", "2", "c", "R"⟩, ⟨"u1", "b", "t", "5", "c", "R"⟩, ⟨"u2", "b", "t", "4", "c", "R"⟩, ⟨"u2", "x", "t", "zz", "c", "R"⟩]).2.2.1 "b" 9 (by decide),
   (claim_c7 [⟨"u1", "a", "t", "2", "c", "R"⟩, ⟨"u1", "b", "t", "5", "c", "R"⟩, ⟨"u2", "b", "t", "4", "c", "R"⟩, ⟨"u2", "x", "t", "zz", "c", "R"⟩]).2.2.2.1 "a" 2 (by decide),
   ((claim_c7 [⟨"u1", "a", "t", "2", "c", "R"⟩, ⟨"u1", "b", "t", "5", "c", "R"⟩, ⟨"u2", "b", "t", "4", "c", "R"⟩, ⟨"u2", "x", "t", "zz", "c", "R"⟩]).2.2.2.2 "x" (by decide)).1⟩

/-! ## Claim C10: supporting lemmas -/

theorem sum_map_one (l : List String) : (l.map (fun _ => (1 : Nat))).sum = l.length := by
  induction l with
  | nil => rfl
  | cons x xs ih =>
    simp [ih]
    omega

theorem alookup_counterOf (xs : List String) (w : String) :
    alookup w (counterOf xs) =
      if xs.any (fun x => x == w) = true
      then some ((xs.filter (fun x => x == w)).length) else none := by
  show alookup w (accumBy (fun k => k) (fun _ => 1) xs []) = _
  rw [alookup_accumBy]
  show (if xs.any (fun x => x == w) = true
    then some (sumFor (fun k => k) (fun _ => 1) w xs) else none) = _
  rw [show sumFor (fun k => k) (fun _ => (1 : Nat)) w xs =
    (xs.filter (fun x => x == w)).length from sum_map_one _]

theorem nodup_counterOf (xs : List String) : (dkeys (counterOf xs)).Nodup :=
  nodup_dkeys_accumBy _ _ _

theorem dkeys_counterOf (xs : List String) :
    dkeys (counterOf xs) = firstOccsFrom [] (xs.map (fun k => k)) := by
  show dkeys (accumBy (fun k => k) (fun _ => 1) xs []) = _
  rw [dkeys_accumBy]
  rfl

theorem counterOf_nil_iff (xs : List String) : (counterOf xs = []) ↔ xs = [] := by
  constructor
  · intro h
    cases hx : xs with
    | nil => rfl
    | cons x rest =>
      exfalso
      have hk := dkeys_counterOf xs
      rw [h, hx, List.map_cons, firstOccsFrom_cons] at hk
      simp [dkeys] at hk
  · intro h
    rw [h]
    rfl

theorem mem_counterOf (xs : List String) (w : String)
    (h : xs.any (fun x => x == w) = true) :
    (w, (xs.filter (fun x => x == w)).length) ∈ counterOf xs := by
  apply mem_of_alookup_eq_some
  rw [alookup_counterOf, if_pos h]

theorem counterOf_val (xs : List String) (w : String) (n : Nat)
    (hm : (w, n) ∈ counterOf xs) :
    xs.any (fun x => x == w) = true ∧ n = (xs.filter (fun x => x == w)).length := by
  have halk := alookup_eq_some_of_mem _ _ _ (nodup_counterOf xs) hm
  rw [alookup_counterOf] at halk
  by_cases h : xs.any (fun x => x == w) = true
  · rw [if_pos h] at halk
    exact ⟨h, (Option.some_inj.mp halk).symm⟩
  · rw [if_neg h] at halk
    exact absurd halk (by simp)

theorem filterMap_resolve_filter (g : Vote → Option Submission) (l : List Vote) :
    (l.filter (fun v => (g v).isSome)).filterMap
      (fun v => (g v).map (fun s => s.submitter_id)) =
      l.filterMap (fun v => (g v).map (fun s => s.submitter_id)) := by
  induction l with
  | nil => rfl
  | cons v vs ih =>
    rw [List.filter_cons]
    cases hg : g v with
    | none =>
      rw [if_neg (by simp), ih, List.filterMap_cons]
      simp only [hg, Option.map_none']
    | some sub =>
      rw [if_pos (by rfl), List.filterMap_cons, List.filterMap_cons, ih]

theorem points_fold_resolve_filter (g : Vote → Option Submission) (l : List Vote)
    (d : List (String × Nat)) :
    (l.filter (fun v => (g v).isSome)).foldl (pgStep g) d = l.foldl (pgStep g) d := by
  induction l generalizing d with
  | nil => rfl
  | cons v vs ih =>
    rw [List.filter_cons]
    cases hg : g v with
    | none =>
      rw [if_neg (by simp), ih, List.foldl_cons]
      rw [show pgStep g d v = d from by unfold pgStep; rw [hg]]
    | some sub =>
      rw [if_pos (by rfl), List.foldl_cons, List.foldl_cons, ih]

theorem points_given_eq (L : League) (cid : String) :
    points_given L cid =
      (votes_get_by_voter_id L.votes cid).foldl
        (pgStep (fun v => L.get_submission_by_uri v.spotify_uri)) [] := rfl

theorem votes_cast_targets_resolvable (L : League) (cid : String) :
    votes_cast_targets (resolvableVotesOnly L) cid = votes_cast_targets L cid := by
  show ((L.votes.filter (fun v => (L.get_submission_by_uri v.spotify_uri).isSome)).filter
      (fun v => v.voter_id == cid)).filterMap
      (fun v => (L.get_submission_by_uri v.spotify_uri).map (fun s => s.submitter_id)) =
    (L.votes.filter (fun v => v.voter_id == cid)).filterMap
      (fun v => (L.get_submission_by_uri v.spotify_uri).map (fun s => s.submitter_id))
  rw [List.filter_comm]
  exact filterMap_resolve_filter _ _

theorem points_given_resolvable (L : League) (cid : String) :
    points_given (resolvableVotesOnly L) cid = points_given L cid := by
  rw [points_given_eq, points_given_eq]
  show ((L.votes.filter (fun v => (L.get_submission_by_uri v.spotify_uri).isSome)).filter
      (fun v => v.voter_id == cid)).foldl
      (pgStep (fun v => L.get_submission_by_uri v.spotify_uri)) [] = _
  rw [List.filter_comm]
  exact points_fold_resolve_filter _ _ []

theorem targets_nil_of_dangling (L : League) (cid : String)
    (h : ∀ v ∈ votes_get_by_voter_id L.votes cid,
      L.get_submission_by_uri v.spotify_uri = none) :
    votes_cast_targets L cid = [] := by
  unfold votes_cast_targets
  rw [List.filterMap_eq_nil_iff]
  intro v hv
  rw [h v hv]
  rfl

theorem points_given_nil_of_dangling (L : League) (cid : String)
    (h : ∀ v ∈ votes_get_by_voter_id L.votes cid,
      L.get_submission_by_uri v.spotify_uri = none) :
    points_given L cid = [] := by
  rw [points_given_eq]
  have haux : ∀ (l : List Vote),
      (∀ v ∈ l, L.get_submission_by_uri v.spotify_uri = none) →
      l.foldl (pgStep (fun v => L.get_submission_by_uri v.spotify_uri)) [] = [] := by
    intro l
    induction l with
    | nil =>
      intro _
      rfl
    | cons v vs ih =>
      intro hl
      rw [List.foldl_cons,
        show pgStep (fun v => L.get_submission_by_uri v.spotify_uri) [] v =
          ([] : List (String × Nat)) from by
          unfold pgStep
          simp only [hl v (List.mem_cons_self v vs)]]
      exact ih (fun u hu => hl u (List.mem_cons_of_mem v hu))
  exact haux _ h

theorem count_received (L : League) (cid w : String) :
    ((received_from_voters L cid).filter (fun x => x == w)).length =
      ((L.get_votes_by_competitor cid).filter (fun v => v.voter_id == w)).length := by
  unfold received_from_voters
  rw [List.filter_map, List.length_map]
  rfl

/-- Claim C10: the cast-side profile statistics count only votes whose URI
resolves to a submission (restricting the votes to the resolvable ones changes
nothing, and a competitor all of whose cast votes dangle gets an absent result
for both cast-side superlatives), while the received-side statistics count
every vote on the competitor's submissions. -/
theorem claim_c10 (L : League) (cid : String) :
    (votes_cast_targets (resolvableVotesOnly L) cid = votes_cast_targets L cid ∧
     points_given (resolvableVotesOnly L) cid = points_given L cid ∧
     most_often_voted_for (resolvableVotesOnly L) cid = most_often_voted_for L cid ∧
     most_points_given_to (resolvableVotesOnly L) cid = most_points_given_to L cid) ∧
    ((∀ v ∈ votes_get_by_voter_id L.votes cid,
        L.get_submission_by_uri v.spotify_uri = none) →
      most_often_voted_for L cid = none ∧ most_points_given_to L cid = none) ∧
    ((most_often_votes_from L cid = none ↔ L.get_votes_by_competitor cid = []) ∧
     (∀ w n, most_common1 (received_from_voters L cid) = some (w, n) →
       n = ((L.get_votes_by_competitor cid).filter (fun v => v.voter_id == w)).length ∧
       (∀ w₂, w₂ ∈ received_from_voters L cid →
         ((L.get_votes_by_competitor cid).filter
           (fun v => v.voter_id == w₂)).length ≤ n)) ∧
     most_often_votes_from L cid =
       (most_common1 (received_from_voters L cid)).map
         (fun p => (competitors_get_by_id L.competitors p.1, p.2))) := by
  refine ⟨⟨votes_cast_targets_resolvable L cid, points_given_resolvable L cid, ?_, ?_⟩,
    ?_, ?_, ?_, ?_⟩
  · unfold most_often_voted_for
    rw [votes_cast_targets_resolvable L cid]
    rfl
  · unfold most_points_given_to
    rw [points_given_resolvable L cid]
    rfl
  · intro h
    constructor
    · unfold most_often_voted_for
      rw [targets_nil_of_dangling L cid h]
      rfl
    · unfold most_points_given_to
      rw [points_given_nil_of_dangling L cid h]
      rfl
  · constructor
    · intro h
      unfold most_often_votes_from at h
      cases hm : most_common1 (received_from_voters L cid) with
      | some p =>
        exfalso
        rw [hm] at h
        cases p
        simp at h
      | none =>
        have hcnt : counterOf (received_from_voters L cid) = [] := by
          have := firstMaxBy_eq_none_iff (fun p : String × Nat => p.2)
            (counterOf (received_from_voters L cid))
          exact this.mp hm
        have hrfv : received_from_voters L cid = [] :=
          (counterOf_nil_iff _).mp hcnt
        unfold received_from_voters at hrfv
        exact List.map_eq_nil_iff.mp hrfv
    · intro h
      have hnone : most_common1 (received_from_voters L cid) = none := by
        show firstMaxBy (fun p : String × Nat => p.2)
          (counterOf (received_from_voters L cid)) = none
        rw [firstMaxBy_eq_none_iff, counterOf_nil_iff]
        unfold received_from_voters
        rw [h]
        rfl
      unfold most_often_votes_from
      rw [hnone]
  · intro w n hm
    have hmax : firstMaxBy (fun p : String × Nat => p.2)
        (counterOf (received_from_voters L cid)) = some (w, n) := hm
    obtain ⟨pre, post, hdec, hpre, hpost⟩ := firstMaxBy_spec _ _ _ hmax
    have hmem : (w, n) ∈ counterOf (received_from_voters L cid) := by
      rw [hdec]
      simp
    obtain ⟨hany, hval⟩ := counterOf_val _ _ _ hmem
    constructor
    · rw [hval]
      exact count_received L cid w
    · intro w₂ hw₂
      have hany₂ : (received_from_voters L cid).any (fun x => x == w₂) = true := by
        rw [List.any_eq_true]
        exact ⟨w₂, hw₂, by simp⟩
      have hmem₂ := mem_counterOf _ _ hany₂
      rw [hdec] at hmem₂
      rw [← count_received L cid w₂]
      rcases List.mem_append.mp hmem₂ with hin | hin
      · exact Nat.le_of_lt (hpre _ hin)
      · rcases List.mem_cons.mp hin with heq | hin2
        · exact Nat.le_of_eq (congrArg Prod.snd heq)
        · exact hpost _ hin2
  · cases hm : most_common1 (received_from_voters L cid) with
    | none =>
      unfold most_often_votes_from
      rw [hm]
      rfl
    | some p =>
      unfold most_often_votes_from
      rw [hm]
      cases p
      rfl

theorem claim_c10_witness :
    (most_often_voted_for ⟨[⟨"c", "C"⟩, ⟨"d", "D"⟩], [], [⟨"u1", "t1", "a1", "x1", "d", "cr", "cm", "R1", "y"⟩], [⟨"u1", "c", "t", "5", "cm", "R1"⟩, ⟨"zz", "c", "t", "7", "cm", "R1"⟩, ⟨"zz", "x", "t", "3", "cm", "R1"⟩]⟩ "x" = none ∧
     most_points_given_to ⟨[⟨"c", "C"⟩, ⟨"d", "D"⟩], [], [⟨"u1", "t1", "a1", "x1", "d", "cr", "cm", "R1", "y"⟩], [⟨"u1", "c", "t", "5", "cm", "R1"⟩, ⟨"zz", "c", "t", "7", "cm", "R1"⟩, ⟨"zz", "x", "t", "3", "cm", "R1"⟩]⟩ "x" = none) ∧
    ((1 : Nat) = ((League.get_votes_by_competitor ⟨[⟨"c", "C"⟩, ⟨"d", "D"⟩], [], [⟨"u1", "t1", "a1", "x1", "d", "cr", "cm", "R1", "y"⟩], [⟨"u1", "c", "t", "5", "cm", "R1"⟩, ⟨"zz", "c", "t", "7", "cm", "R1"⟩, ⟨"zz", "x", "t", "3", "cm", "R1"⟩]⟩ "d").filter
        (fun v => v.voter_id == "c")).length ∧
     (∀ w₂, w₂ ∈ received_from_voters ⟨[⟨"c", "C"⟩, ⟨"d", "D"⟩], [], [⟨"u1", "t1", "a1", "x1", "d", "cr", "cm", "R1", "y"⟩], [⟨"u1", "c", "t", "5", "cm", "R1"⟩, ⟨"zz", "c", "t", "7", "cm", "R1"⟩, ⟨"zz", "x", "t", "3", "cm", "R1"⟩]⟩ "d" →
       ((League.get_votes_by_competitor ⟨[⟨"c", "C"⟩, ⟨"d", "D"⟩], [], [⟨"u1", "t1", "a1", "x1", "d", "cr", "cm", "R1", "y"⟩], [⟨"u1", "c", "t", "5", "cm", "R1"⟩, ⟨"zz", "c", "t", "7", "cm", "R1"⟩, ⟨"zz", "x", "t", "3", "cm", "R1"⟩]⟩ "d").filter
         (fun v => v.voter_id == w₂)).length ≤ 1)) :=
  ⟨(claim_c10 ⟨[⟨"c", "C"⟩, ⟨"d", "D"⟩], [], [⟨"u1", "t1", "a1", "x1", "d", "cr", "cm", "R1", "y"⟩], [⟨"u1", "c", "t", "5", "cm", "R1"⟩, ⟨"zz", "c", "t", "7", "cm", "R1"⟩, ⟨"zz", "x", "t", "3", "cm", "R1"⟩]⟩ "x").2.1 (by decide),
   (claim_c10 ⟨[⟨"c", "C"⟩, ⟨"d", "D"⟩], [], [⟨"u1", "t1", "a1", "x1", "d", "cr", "cm", "R1", "y"⟩], [⟨"u1", "c", "t", "5", "cm", "R1"⟩, ⟨"zz", "c", "t", "7", "cm", "R1"⟩, ⟨"zz", "x", "t", "3", "cm", "R1"⟩]⟩ "d").2.2.2.1 "c" 1 (by decide)⟩
